import Mathlib

/-!
Verification development for the agent-dashboard repository.

The development shallowly embeds the server-side data-normalization and
orchestration layer of the dashboard (the telemetry aggregation route and
the cron re-run route) as executable Lean definitions, and proves the
stated properties about them.

Modelling conventions:
* JavaScript runtime values that can appear in parsed JSON are modelled by
  `JsonVal`; the JavaScript value `undefined` is modelled by `Option.none`
  wherever it can occur (a missing object field, a failed coercion).
* JavaScript numbers are modelled as exact rationals (`Rat`); the only
  consumers in this code base guard every number with `Number.isFinite`,
  so non-finite results of primitive operations are modelled by `none`.
* Property access `v.f` on `null` throws a `TypeError` in JavaScript;
  fallible code paths are therefore embedded in `Except String`.
* `Math.random()` (used only to salt generated display ids) is modelled by
  an oracle `rand : Nat → String` applied to the index of the call; the
  current wall clock (`Date.now()` / `new Date()`) is an explicit
  environment field.
* The external gateway (reached with `fetch`) is modelled by an oracle
  mapping a tool name and serialized arguments to a network behaviour
  (a thrown transport error, or an HTTP response).
-/

namespace Dashboard

/-- A JavaScript/JSON runtime value (the JavaScript `undefined` is
represented as `Option.none` at use sites, never inside `JsonVal`). -/
inductive JsonVal where
  | null : JsonVal
  | bool : Bool → JsonVal
  | num : Rat → JsonVal
  | str : String → JsonVal
  | arr : List JsonVal → JsonVal
  | obj : List (String × JsonVal) → JsonVal

/-- JavaScript truthiness of a defined value: `null`, `false`, `0` and the
empty string are falsy; every object and array (even empty) is truthy. -/
def truthyV : JsonVal → Bool
  | .null => false
  | .bool b => b
  | .num n => n != 0
  | .str s => s != ""
  | .arr _ => true
  | .obj _ => true

/-- JavaScript truthiness of a possibly-`undefined` value. -/
def truthy : Option JsonVal → Bool
  | none => false
  | some v => truthyV v

/-- First-match association lookup: JavaScript object field access on an
object value (objects cannot contain duplicate keys, so first match is
exact). Returns `none` for a missing field, i.e. `undefined`. -/
def jfield : List (String × JsonVal) → String → Option JsonVal
  | [], _ => none
  | (k, v) :: rest, key => if k == key then some v else jfield rest key

/-- Property access `v.f` on a value that is known not to be
`null`/`undefined`: object fields are looked up; on primitives and arrays
the named (non-index) properties read here are all absent, giving
`undefined`. -/
def jget : JsonVal → String → Option JsonVal
  | .obj fields, key => jfield fields key
  | _, _ => none

/-- Optional chaining `v?.f`: short-circuits to `undefined` on
`null`/`undefined`, otherwise reads the property. -/
def jchain : Option JsonVal → String → Option JsonVal
  | none, _ => none
  | some .null, _ => none
  | some v, key => jget v key

/-- The JavaScript `||` operator on possibly-`undefined` values: returns
the left operand when it is truthy, otherwise the right operand. -/
def jsOr (a b : Option JsonVal) : Option JsonVal :=
  if truthy a then a else b

/-- The JavaScript `??` operator: returns the right operand exactly when
the left is `null` or `undefined`. -/
def jsNullish (a : Option JsonVal) (b : Option JsonVal) : Option JsonVal :=
  match a with
  | none => b
  | some .null => b
  | some v => some v

/-- `a || b` on optional strings (the result of a string coercion):
the empty string is falsy and falls through. -/
def orStr (a b : Option String) : Option String :=
  match a with
  | some s => if s == "" then b else some s
  | none => b

/-- `a || b` on optional finite numbers: `0` is falsy and falls through
(`NaN` cannot occur here because the coercions only produce finite
numbers). -/
def orNum (a b : Option Rat) : Option Rat :=
  match a with
  | some n => if n == 0 then b else some n
  | none => b

/-! ### Primitive JavaScript conversions

`Number(string)`, `new Date(string)` and `Date.prototype.toISOString` are
ECMAScript built-ins; they are modelled here for the fragment this code
base exercises: decimal/hex/octal/binary numeric literals (numbers as
exact rationals; non-finite results are `none` since every caller guards
with `Number.isFinite`), and ISO-8601 date strings (the format mandated by
the ECMAScript specification; engine-specific lenient fallback parsing of
other date formats is modelled as invalid, and a date-time lacking a UTC
offset is read as UTC, i.e. a UTC-configured server). -/

/-- JavaScript whitespace as trimmed by `String.prototype.trim` and the
`Number` conversion (the common ASCII subset). -/
def isJsWs (c : Char) : Bool :=
  c = ' ' ∨ c = '\t' ∨ c = '\n' ∨ c = '\r' ∨ c = '\x0b' ∨ c = '\x0c'

/-- `s.trim()`. -/
def jsTrim (s : String) : String :=
  String.mk (((s.data.dropWhile isJsWs).reverse.dropWhile isJsWs).reverse)

/-- `s.slice(0, n)` (code points standing in for UTF-16 units; no claim
inspects a truncated string). -/
def strTake (s : String) (n : Nat) : String :=
  String.mk (s.data.take n)

/-- Numeric value of a list of decimal digit characters. -/
def natOfDigits (cs : List Char) : Nat :=
  cs.foldl (fun a c => a * 10 + (c.toNat - 48)) 0

/-- Value of one digit in the given base, if valid. -/
def digitVal (base : Nat) (c : Char) : Option Nat :=
  let v :=
    if '0' ≤ c ∧ c ≤ '9' then some (c.toNat - 48)
    else if 'a' ≤ c ∧ c ≤ 'f' then some (c.toNat - 87)
    else if 'A' ≤ c ∧ c ≤ 'F' then some (c.toNat - 55)
    else none
  match v with
  | some v => if v < base then some v else none
  | none => none

/-- Numeric value of a digit string in the given base; `none` if empty or
any character is invalid. -/
def natOfRadix (base : Nat) (cs : List Char) : Option Nat :=
  match cs with
  | [] => none
  | _ =>
    cs.foldl
      (fun acc c =>
        match acc, digitVal base c with
        | some a, some v => some (a * base + v)
        | _, _ => none)
      (some 0)

/-- Parse the optional exponent suffix of a decimal literal and apply it
to the mantissa; succeeds only if the remaining input is consumed. -/
def applyExponent (m : Rat) : List Char → Option Rat
  | [] => some m
  | e :: rest =>
    if e = 'e' ∨ e = 'E' then
      let (neg, ds) :=
        match rest with
        | '+' :: ds => (false, ds)
        | '-' :: ds => (true, ds)
        | ds => (false, ds)
      if ds ≠ [] ∧ ds.all Char.isDigit then
        let k := natOfDigits ds
        some (if neg then m / (10 : Rat) ^ k else m * (10 : Rat) ^ k)
      else none
    else none

/-- Parse an unsigned decimal literal `digits [. digits] [exp]` or
`. digits [exp]`, requiring all input consumed. -/
def parseDecimal (cs : List Char) : Option Rat :=
  let (ip, r1) := cs.span Char.isDigit
  match r1 with
  | '.' :: r2 =>
    let (fp, r3) := r2.span Char.isDigit
    if ip = [] ∧ fp = [] then none
    else
      let m : Rat := (natOfDigits ip : Rat) + (natOfDigits fp : Rat) / (10 : Rat) ^ fp.length
      applyExponent m r3
  | _ =>
    if ip = [] then none
    else applyExponent ((natOfDigits ip : Rat)) r1

/-- Model of the ECMAScript `Number(string)` conversion (`none` encodes a
non-finite result: `NaN` or an infinity, which every caller discards). -/
def jsStringToNumber (s : String) : Option Rat :=
  let t := jsTrim s
  if t = "" then some 0
  else
    match t.data with
    | '0' :: x :: rest =>
      if x = 'x' ∨ x = 'X' then (natOfRadix 16 rest).map (fun n => (n : Rat))
      else if x = 'o' ∨ x = 'O' then (natOfRadix 8 rest).map (fun n => (n : Rat))
      else if x = 'b' ∨ x = 'B' then (natOfRadix 2 rest).map (fun n => (n : Rat))
      else parseDecimal t.data
    | _ =>
      let (neg, body) :=
        match t.data with
        | '+' :: rest => (false, rest)
        | '-' :: rest => (true, rest)
        | rest => (false, rest)
      if body = "Infinity".data then none
      else (parseDecimal body).map (fun q => if neg then -q else q)

/-- Serial day number of a Gregorian calendar date, relative to
1970-01-01 (days-from-civil). -/
def daysFromCivil (y m d : Int) : Int :=
  let y := y - (if m ≤ 2 then 1 else 0)
  let era := Int.fdiv y 400
  let yoe := y - era * 400
  let doy := (153 * (m + (if m > 2 then -3 else 9)) + 2) / 5 + d - 1
  let doe := yoe * 365 + yoe / 4 - yoe / 100 + doy
  era * 146097 + doe - 719468

/-- Gregorian calendar date of a serial day number (civil-from-days). -/
def civilFromDays (z : Int) : Int × Int × Int :=
  let z := z + 719468
  let era := Int.fdiv z 146097
  let doe := z - era * 146097
  let yoe := (doe - doe / 1460 + doe / 36524 - doe / 146096) / 365
  let y := yoe + era * 400
  let doy := doe - (365 * yoe + yoe / 4 - yoe / 100)
  let mp := (5 * doy + 2) / 153
  let d := doy - (153 * mp + 2) / 5 + 1
  let m := mp + (if mp < 10 then 3 else -9)
  (y + (if m ≤ 2 then 1 else 0), m, d)

/-- Gregorian leap-year test. -/
def isLeapYear (y : Int) : Bool :=
  (Int.emod y 4 == 0 ∧ Int.emod y 100 != 0) ∨ Int.emod y 400 == 0

/-- Number of days in a month. -/
def daysInMonth (y m : Int) : Int :=
  if m = 2 then (if isLeapYear y then 29 else 28)
  else if m = 4 ∨ m = 6 ∨ m = 9 ∨ m = 11 then 30
  else 31

/-- Read exactly `n` decimal digits from the front of the input. -/
def readDigits (n : Nat) : List Char → Option (Nat × List Char) :=
  fun cs =>
    let pre := cs.take n
    if pre.length = n ∧ pre.all Char.isDigit then some (natOfDigits pre, cs.drop n)
    else none

/-- Parse the time-zone offset suffix of an ISO date-time, in minutes
east of UTC; an absent offset is read as UTC. -/
def parseTzOffset : List Char → Option Int
  | [] => some 0
  | ['Z'] => some 0
  | c :: rest =>
    if c = '+' ∨ c = '-' then
      let sign : Int := if c = '-' then -1 else 1
      match readDigits 2 rest with
      | some (h, rest2) =>
        let restMin :=
          match rest2 with
          | ':' :: r => readDigits 2 r
          | _ => readDigits 2 rest2
        match restMin with
        | some (mi, []) =>
          if h ≤ 23 ∧ mi ≤ 59 then some (sign * ((h : Int) * 60 + mi)) else none
        | _ => none
      | none => none
    else none

/-- Parse the time part `HH:mm[:ss[.frac]][offset]` of an ISO date-time,
yielding milliseconds past midnight adjusted to UTC. -/
def parseIsoTime (cs : List Char) : Option Int := do
  let (h, r1) ← readDigits 2 cs
  let r2 ← match r1 with | ':' :: r => some r | _ => none
  let (mi, r3) ← readDigits 2 r2
  let (s, ms, r6) ←
    match r3 with
    | ':' :: r4 => do
      let (s, r5) ← readDigits 2 r4
      match r5 with
      | '.' :: r6 =>
        let (fs, r7) := r6.span Char.isDigit
        if fs = [] ∨ 9 < fs.length then none
        else
          let padded := (fs ++ ['0', '0', '0']).take 3
          some (s, natOfDigits padded, r7)
      | _ => some (s, 0, r5)
    | _ => some (0, 0, r3)
  let off ← parseTzOffset r6
  if h ≤ 23 ∧ mi ≤ 59 ∧ s ≤ 59 then
    some ((h : Int) * 3600000 + (mi : Int) * 60000 + (s : Int) * 1000 + (ms : Int) - off * 60000)
  else none

/-- Model of `new Date(string).getTime()` on the ECMAScript ISO-8601
date/date-time format: epoch milliseconds, or `none` for an invalid date
(`NaN`). -/
def parseIsoMs (str : String) : Option Int := do
  let cs := str.data
  let (y, r1) ← readDigits 4 cs
  let (m, r2) ←
    match r1 with
    | '-' :: r => readDigits 2 r
    | _ => some (1, r1) |>.filter (fun p => p.2 = [] ∨ p.2.head? = some 'T')
  let (d, r3) ←
    match r2 with
    | '-' :: r => readDigits 2 r
    | _ => some (1, r2)
  if ¬ (1 ≤ m ∧ m ≤ 12 ∧ 1 ≤ d ∧ (d : Int) ≤ daysInMonth y m) then none
  else
    let dayMs := daysFromCivil y m d * 86400000
    match r3 with
    | [] => some dayMs
    | 'T' :: rt => do
      let t ← parseIsoTime rt
      some (dayMs + t)
    | _ => none

/-- Left-pad a natural number with zeros to the given width. -/
def padNat (w n : Nat) : String :=
  let s := toString n
  String.mk (List.replicate (w - s.length) '0') ++ s

/-- Model of `Date.prototype.toISOString` on epoch milliseconds (years
outside 0–9999, which ECMAScript prints in expanded form, do not occur in
this development and are padded plainly). -/
def toIsoString (ms : Int) : String :=
  let days := Int.fdiv ms 86400000
  let rem := (ms - days * 86400000).toNat
  let c := civilFromDays days
  let h := rem / 3600000
  let mi := rem / 60000 % 60
  let s := rem / 1000 % 60
  let msp := rem % 1000
  padNat 4 c.1.toNat ++ "-" ++ padNat 2 c.2.1.toNat ++ "-" ++ padNat 2 c.2.2.toNat ++
    "T" ++ padNat 2 h ++ ":" ++ padNat 2 mi ++ ":" ++ padNat 2 s ++ "." ++ padNat 3 msp ++ "Z"

/-- Model of the `String()` conversion as used for template interpolation
and `Array.prototype.join` (non-integer rationals, which never arise from
the inputs this code handles, are printed as fractions). -/
def jsNumToString (n : Rat) : String :=
  if n.den = 1 then toString n.num
  else toString n.num ++ "/" ++ toString n.den

/-- `String()` on an arbitrary defined value (array/object printing is
simplified; no claim inspects it). -/
def jsDisplay : JsonVal → String
  | .null => "null"
  | .bool b => if b then "true" else "false"
  | .num n => jsNumToString n
  | .str s => s
  | .arr _ => ""
  | .obj _ => "[object Object]"

/-- `String()` on a possibly-`undefined` value. -/
def jsDisplayOpt : Option JsonVal → String
  | none => "undefined"
  | some v => jsDisplay v

/-! ### JSON serialization (`JSON.stringify` / `JSON.parse`) -/

/-- Escape one character for a JSON string literal. -/
def jsonEscapeChar (c : Char) : String :=
  if c = '"' then "\\\""
  else if c = '\\' then "\\\\"
  else if c = '\n' then "\\n"
  else if c = '\t' then "\\t"
  else if c = '\r' then "\\r"
  else String.mk [c]

/-- A JSON string literal for the given string. -/
def jsonQuote (s : String) : String :=
  "\"" ++ String.join (s.data.map jsonEscapeChar) ++ "\""

mutual

/-- Model of `JSON.stringify` on a defined value. -/
def jsonStringify : JsonVal → String
  | .null => "null"
  | .bool true => "true"
  | .bool false => "false"
  | .num n => jsNumToString n
  | .str s => jsonQuote s
  | .arr xs => "[" ++ stringifyElems xs ++ "]"
  | .obj fs => "\x7b" ++ stringifyFields fs ++ "\x7d"

/-- Comma-joined serializations of array elements. -/
def stringifyElems : List JsonVal → String
  | [] => ""
  | [x] => jsonStringify x
  | x :: rest => jsonStringify x ++ "," ++ stringifyElems rest

/-- Comma-joined serializations of object fields. -/
def stringifyFields : List (String × JsonVal) → String
  | [] => ""
  | [(k, v)] => jsonQuote k ++ ":" ++ jsonStringify v
  | (k, v) :: rest => jsonQuote k ++ ":" ++ jsonStringify v ++ "," ++ stringifyFields rest

end

/-- JSON insignificant whitespace. -/
def skipWs (cs : List Char) : List Char :=
  cs.dropWhile (fun c => c = ' ' ∨ c = '\t' ∨ c = '\n' ∨ c = '\r')

/-- Parse a JSON string body (after the opening quote), handling the
common escapes and `\uXXXX`. -/
def parseJsonStr : List Char → Option (String × List Char)
  | [] => none
  | '"' :: rest => some ("", rest)
  | '\\' :: 'u' :: a :: b :: c :: d :: r =>
    match natOfRadix 16 [a, b, c, d] with
    | some n => (parseJsonStr r).map (fun p => (String.mk [Char.ofNat n] ++ p.1, p.2))
    | none => none
  | '\\' :: e :: rest =>
    let c :=
      if e = 'n' then '\n'
      else if e = 't' then '\t'
      else if e = 'r' then '\r'
      else if e = 'b' then Char.ofNat 8
      else if e = 'f' then Char.ofNat 12
      else e
    (parseJsonStr rest).map (fun p => (String.mk [c] ++ p.1, p.2))
  | c :: rest => (parseJsonStr rest).map (fun p => (String.mk [c] ++ p.1, p.2))

/-- Parse a JSON numeric literal from the front of the input. -/
def parseJsonNum (cs : List Char) : Option (Rat × List Char) :=
  let isNumChar (c : Char) : Bool := c.isDigit ∨ c = '-' ∨ c = '+' ∨ c = '.' ∨ c = 'e' ∨ c = 'E'
  let (tok, rest) := cs.span isNumChar
  match tok with
  | '-' :: body => (parseDecimal body).map (fun q => (-q, rest))
  | body => (parseDecimal body).map (fun q => (q, rest))

mutual

/-- Fueled recursive-descent JSON value parser. -/
def parseJsonVal : Nat → List Char → Option (JsonVal × List Char)
  | 0, _ => none
  | fuel + 1, cs =>
    match skipWs cs with
    | 'n' :: 'u' :: 'l' :: 'l' :: r => some (.null, r)
    | 't' :: 'r' :: 'u' :: 'e' :: r => some (.bool true, r)
    | 'f' :: 'a' :: 'l' :: 's' :: 'e' :: r => some (.bool false, r)
    | '"' :: r => (parseJsonStr r).map (fun p => (.str p.1, p.2))
    | c :: r =>
      if c = '\x5b' then
        match skipWs r with
        | ']' :: r2 => some (.arr [], r2)
        | r2 => (parseJsonElems fuel r2).map (fun p => (.arr p.1, p.2))
      else if c = '\x7b' then
        match skipWs r with
        | '\x7d' :: r2 => some (.obj [], r2)
        | r2 => (parseJsonFields fuel r2).map (fun p => (.obj p.1, p.2))
      else (parseJsonNum (c :: r)).map (fun p => (.num p.1, p.2))
    | [] => none

/-- Comma-separated array elements up to the closing bracket. -/
def parseJsonElems : Nat → List Char → Option (List JsonVal × List Char)
  | 0, _ => none
  | fuel + 1, cs =>
    match parseJsonVal fuel cs with
    | some (v, r) =>
      match skipWs r with
      | ',' :: r2 => (parseJsonElems fuel r2).map (fun p => (v :: p.1, p.2))
      | ']' :: r2 => some ([v], r2)
      | _ => none
    | none => none

/-- Comma-separated object members up to the closing brace.  (A repeated
key, for which ECMAScript keeps the last value, does not occur in any
input considered here.) -/
def parseJsonFields : Nat → List Char → Option (List (String × JsonVal) × List Char)
  | 0, _ => none
  | fuel + 1, cs =>
    match skipWs cs with
    | '"' :: r =>
      match parseJsonStr r with
      | some (k, r2) =>
        match skipWs r2 with
        | ':' :: r3 =>
          match parseJsonVal fuel r3 with
          | some (v, r4) =>
            match skipWs r4 with
            | ',' :: r5 => (parseJsonFields fuel r5).map (fun p => ((k, v) :: p.1, p.2))
            | '\x7d' :: r5 => some ([(k, v)], r5)
            | _ => none
          | none => none
        | _ => none
      | none => none
    | _ => none

end

/-- Model of `JSON.parse`: `none` is a thrown `SyntaxError`. -/
def jsonParse (s : String) : Option JsonVal :=
  match parseJsonVal (s.length + 1) s.data with
  | some (v, r) => if skipWs r = [] then some v else none
  | none => none

/-! ### Field coercion utilities (from the telemetry route) -/

/-- `coerceString`: passes strings through, stringifies numbers and
booleans, yields `undefined` for everything else. -/
def coerceString : Option JsonVal → Option String
  | none => none
  | some .null => none
  | some (.str s) => some s
  | some (.num n) => some (jsNumToString n)
  | some (.bool b) => some (if b then "true" else "false")
  | some _ => none

/-- `coerceNumber`: passes finite numbers through; parses non-blank
strings with `Number`, discarding non-finite results; else `undefined`. -/
def coerceNumber : Option JsonVal → Option Rat
  | some (.num n) => some n
  | some (.str s) => if jsTrim s ≠ "" then jsStringToNumber s else none
  | _ => none

/-- `coerceTimestamp`: coerces to string, parses as a calendar date, and
renders the result with `toISOString`; `undefined` on any failure. -/
def coerceTimestamp (v : Option JsonVal) : Option String :=
  match coerceString v with
  | none => none
  | some candidate =>
    if candidate = "" then none
    else
      match parseIsoMs candidate with
      | none => none
      | some ms => some (toIsoString ms)

/-- The fixed priority-ordered wrapper keys probed by `normalizeArray`. -/
def arrayCandidates : List String :=
  ["sessions", "items", "runs", "jobs", "events", "processes", "queues", "records", "data"]

/-- The probing loop of `normalizeArray`: first array-valued key wins. -/
def probeArrays (record : JsonVal) : List String → List JsonVal
  | [] => []
  | k :: rest =>
    match jget record k with
    | some (.arr xs) => xs
    | _ => probeArrays record rest

/-- `normalizeArray`: an array is returned unchanged; a falsy value gives
`[]`; otherwise the wrapper keys are probed in priority order. -/
def normalizeArray : Option JsonVal → List JsonVal
  | some (.arr xs) => xs
  | some v => if truthyV v then probeArrays v arrayCandidates else []
  | none => []

/-- `isErrorResult`: a non-array object value carrying a truthy `error`
field. -/
def isErrorResult : Option JsonVal → Bool
  | some (.obj fs) => truthy (jfield fs "error")
  | _ => false

/-! ### Gateway client -/

/-- Environment-derived configuration of the routes. -/
structure Config where
  gatewayUrl : Option String
  gatewayToken : Option String
  whoopTokenExpiresAt : Option String
  sofiRiskLevel : Option String

/-- Truthiness of the `GATEWAY_URL` environment value (absent or empty
means unconfigured). -/
def urlConfigured (cfg : Config) : Bool :=
  match cfg.gatewayUrl with
  | none => false
  | some u => u != ""

/-- Body of an HTTP response as seen through `response.json()`. -/
inductive NetBody where
  | jsonOk : JsonVal → NetBody
  | jsonFail : NetBody

/-- Behaviour of one `fetch` to the gateway: a thrown transport error
(`some m` is an `Error` with message `m`, `none` a non-`Error` throw),
or an HTTP response with status, status text, elapsed time and body. -/
inductive NetBehavior where
  | throws : Option String → NetBehavior
  | responds : Nat → String → Int → NetBody → NetBehavior

/-- The external gateway, as an oracle from tool name and arguments to
the behaviour of the single `fetch` issued for that invocation. -/
def Net : Type := String → JsonVal → NetBehavior

/-- Outcome record of `invokeGateway` (the `error` field holds whatever
value the code assigned, which is a string on every reachable path). -/
structure GatewayInvokeResult where
  ok : Bool
  result : Option JsonVal := none
  error : Option JsonVal := none
  latencyMs : Option Int := none
  status : Option Nat := none

/-- Index access `content[0]` on a truthy value. -/
def jindex0 : Option JsonVal → Option JsonVal
  | some (.arr (x :: _)) => some x
  | some (.obj fs) => jfield fs "0"
  | some (.str s) =>
    match s.data with
    | [] => none
    | c :: _ => some (.str (String.mk [c]))
  | _ => none

/-- `parseGatewayResult`: unwraps a `{content:[{text:"<json>"}]}` tool
envelope by parsing the inner text, falling back to the raw value. -/
def parseGatewayResult (result : JsonVal) : JsonVal :=
  if ¬ truthyV result then result
  else
    let content := jget result "content"
    let text := jchain (jindex0 content) "text"
    if truthy content ∧ truthy text then
      match jsonParse (jsDisplayOpt text) with
      | some v => v
      | none => result
    else result

/-- `x ?? y` where the fallback is a defined value. -/
def nullishGet (a : Option JsonVal) (b : JsonVal) : JsonVal :=
  match a with
  | none => b
  | some .null => b
  | some v => v

/-- The status line `${response.status} ${response.statusText}`. -/
def statusLine (status : Nat) (statusText : String) : String :=
  toString status ++ " " ++ statusText

/-- `invokeGateway` of the telemetry route: one attempt against the
configured gateway, returning a tagged outcome and never throwing. -/
def invokeGateway (cfg : Config) (net : Net) (tool : String) (args : JsonVal) :
    GatewayInvokeResult :=
  if ¬ urlConfigured cfg then
    { ok := false, error := some (.str "Missing GATEWAY_URL") }
  else
    match net tool args with
    | .throws msg =>
      { ok := false, error := some (.str (msg.getD "Gateway request failed")) }
    | .responds status statusText latency body =>
      let payload : JsonVal :=
        match body with
        | .jsonOk v => v
        | .jsonFail => .null
      if 200 ≤ status ∧ status ≤ 299 then
        let result := parseGatewayResult (nullishGet (jchain (some payload) "result") payload)
        { ok := true, result := some result, latencyMs := some latency, status := some status }
      else
        let errorMessage :=
          jsOr (jchain (some payload) "error")
            (jsOr (jchain (some payload) "message")
              (some (.str (statusLine status statusText))))
        { ok := false, error := errorMessage, latencyMs := some latency, status := some status }

/-! ### Fallback tool lookup -/

/-- `Array.prototype.join(", ")`. -/
def joinComma : List String → String
  | [] => ""
  | [a] => a
  | a :: rest => a ++ ", " ++ joinComma rest

/-- The warning recorded when every candidate tool fails. -/
def faNote (label : String) (tools : List String) : String :=
  label ++ " unavailable (tried " ++ joinComma tools ++ ")"

/-- The success condition of the `firstAvailable` loop, factored out:
the invocation is `ok` and its result carries no embedded error field. -/
def faSucceeds (cfg : Config) (net : Net) (args : JsonVal) (tool : String) : Bool :=
  (invokeGateway cfg net tool args).ok && !isErrorResult (invokeGateway cfg net tool args).result

/-- The candidate loop of `firstAvailable`: the first tool whose
invocation is `ok` without an embedded error field wins. -/
def firstAvailableLoop (cfg : Config) (net : Net) (args : JsonVal) :
    List String → Option (String × Option JsonVal)
  | [] => none
  | tool :: rest =>
    if faSucceeds cfg net args tool then some (tool, (invokeGateway cfg net tool args).result)
    else firstAvailableLoop cfg net args rest

/-- `firstAvailable`: try each candidate tool in order; on success return
its name and result leaving the warnings untouched, otherwise append one
warning naming every attempted tool. -/
def firstAvailable (cfg : Config) (net : Net) (tools : List String) (args : JsonVal)
    (warnings : List String) (label : String) :
    Option (String × Option JsonVal) × List String :=
  match firstAvailableLoop cfg net args tools with
  | some p => (some p, warnings)
  | none => (none, warnings ++ [faNote label tools])

/-! ### Response normalizers

Property access on `null` throws a `TypeError` in JavaScript, so every
normalizer that dereferences the elements of a raw collection is embedded
in `Except String`; all other malformed shapes degrade to absent fields.
`Math.random()` id salts are an oracle over the call index, and string
`.slice(0, n)` is modelled by `String.take` (code points for UTF-16
units; no claim inspects a truncated detail string). -/

/-- Ambient JavaScript runtime state: the current clock and the
`Math.random()` id-salt oracle. -/
structure JsEnv where
  nowMs : Int
  rand : Nat → String

/-- Property dereference target check: JavaScript throws a `TypeError`
when a field of `null` is read. -/
def asRecord : JsonVal → Except String JsonVal
  | .null => .error "TypeError"
  | v => .ok v

/-- `Array.prototype.map` over a callback that can throw: elements are
processed left to right and the first `TypeError` propagates. -/
def exMap {β : Type} (f : JsonVal → Except String β) : List JsonVal → Except String (List β)
  | [] => .ok []
  | x :: rest => do
    let y ← f x
    let ys ← exMap f rest
    .ok (y :: ys)

/-- Index-carrying effectful map used by the normalizers to model one
`Math.random()` call per generated fallback id. -/
def mapWithIndex {β : Type} (f : Nat → JsonVal → Except String β) :
    Nat → List JsonVal → Except String (List β)
  | _, [] => .ok []
  | k, x :: rest => do
    let y ← f k x
    let ys ← mapWithIndex f (k + 1) rest
    .ok (y :: ys)

/-- A normalized session record. -/
structure Session where
  key : String
  label : Option String
  channel : Option String
  kind : Option String
  model : Option String
  updatedAt : Option Int
  totalTokens : Option Rat
  thinkingLevel : Option String
  abortedLastRun : Bool
  turns : Option Rat
  lastActivity : Option String

/-- The element mapping of `normalizeSessions` (on a non-`null`
element). -/
def sessionOfRecord (e : JsonVal) : Session :=
  let updatedAtIso :=
    orStr (coerceTimestamp (jget e "updated_at"))
      (orStr (coerceTimestamp (jget e "updatedAt"))
        (orStr (coerceTimestamp (jget e "last_activity"))
          (coerceTimestamp (jget e "lastActivity"))))
  { key :=
      (orStr (coerceString (jget e "key"))
        (orStr (coerceString (jget e "session_id"))
          (orStr (coerceString (jget e "id")) (some "unknown")))).getD "unknown"
    label := coerceString (jget e "label")
    channel := coerceString (jget e "channel")
    kind := coerceString (jget e "kind")
    model := coerceString (jget e "model")
    updatedAt :=
      match updatedAtIso with
      | some s => if s = "" then none else parseIsoMs s
      | none => none
    totalTokens := orNum (coerceNumber (jget e "total_tokens")) (coerceNumber (jget e "totalTokens"))
    thinkingLevel := orStr (coerceString (jget e "thinking_level")) (coerceString (jget e "thinkingLevel"))
    abortedLastRun := truthy (jsOr (jget e "abortedLastRun") (jget e "aborted_last_run"))
    turns := coerceNumber (jget e "turns")
    lastActivity := updatedAtIso }

/-- `normalizeSessions`: reads the session list from `sessions` or
`details.sessions`, then maps each element; calling `.map` on a truthy
non-array, or dereferencing a `null` element, throws. -/
def normalizeSessions (result : Option JsonVal) : Except String (List Session) :=
  let sessionsVal :=
    jsOr (jchain result "sessions")
      (jsOr (jchain (jchain result "details") "sessions") (some (.arr [])))
  match sessionsVal with
  | some (.arr xs) => exMap (fun e => (asRecord e).map sessionOfRecord) xs
  | _ => .error "TypeError"

/-- A synthesized terminal feed item. -/
structure TerminalItem where
  id : String
  type : String
  source : String
  detail : String
  role : String
  timestamp : String

/-- Generated display id `label-timestamp-random`. -/
def mkItemId (env : JsEnv) (label timestamp : String) (k : Nat) : String :=
  label ++ "-" ++ timestamp ++ "-" ++ env.rand k

/-- `tc?.function?.name || "unknown"`, stringified by `join`. -/
def toolCallName (tc : JsonVal) : String :=
  jsDisplay ((jsOr (jchain (jchain (some tc) "function") "name") (some (.str "unknown"))).getD (.str "unknown"))

/-- `chunk.name || "tool"`, stringified by template interpolation. -/
def chunkName (c : JsonVal) : String :=
  jsDisplay ((jsOr (jget c "name") (some (.str "tool"))).getD (.str "tool"))

/-- `Array.isArray(entry.content) ? entry.content : []`. -/
def contentArrayOf (e : JsonVal) : List JsonVal :=
  match jget e "content" with
  | some (.arr xs) => xs
  | _ => []

/-- `Array.isArray(entry.tool_calls) ? entry.tool_calls : []`. -/
def toolCallsOf (e : JsonVal) : List JsonVal :=
  match jget e "tool_calls" with
  | some (.arr xs) => xs
  | _ => []

/-- `coerceString(entry.role) || "assistant"`. -/
def roleOf (e : JsonVal) : String :=
  (orStr (coerceString (jget e "role")) (some "assistant")).getD "assistant"

/-- The content-chunk loop of the history normalizer: one synthesized
item per `toolCall`/`toolResult`-tagged chunk, in content order. -/
def chunkLoop (env : JsEnv) (label role timestamp : String) :
    Nat → List JsonVal → Except String (List TerminalItem)
  | _, [] => .ok []
  | k, chunk :: rest => do
    let c ← asRecord chunk
    match jget c "type" with
    | some (.str "toolCall") =>
      let args :=
        if truthy (jget c "arguments") then jsonStringify ((jget c "arguments").getD .null) else ""
      let item : TerminalItem :=
        { id := mkItemId env label timestamp k, type := "tool_call", source := label,
          detail := strTake (chunkName c ++ " " ++ args) 260, role := role, timestamp := timestamp }
      let restItems ← chunkLoop env label role timestamp (k + 1) rest
      .ok (item :: restItems)
    | some (.str "toolResult") =>
      let resultText :=
        match jget c "content" with
        | some (.str s) => s
        | cv => jsonStringify (nullishGet cv (.str ""))
      let item : TerminalItem :=
        { id := mkItemId env label timestamp k, type := "tool_result", source := label,
          detail := strTake (chunkName c ++ " " ++ resultText) 260, role := role, timestamp := timestamp }
      let restItems ← chunkLoop env label role timestamp (k + 1) rest
      .ok (item :: restItems)
    | _ => chunkLoop env label role timestamp k rest

/-- The per-entry body of the history normalizer loop (`k` is the index
of the next `Math.random()` call). -/
def processEntry (env : JsEnv) (record : Option JsonVal) (sessionLabel : Option String)
    (k : Nat) (entry : JsonVal) : Except String (List TerminalItem) := do
  let e ← asRecord entry
  let timestamp := (orStr (coerceTimestamp (jget e "timestamp")) (some (toIsoString env.nowMs))).getD ""
  let role := roleOf e
  let label :=
    (orStr sessionLabel (orStr (coerceString (jchain record "label")) (some "session"))).getD "session"
  let contentArray : List JsonVal := contentArrayOf e
  let textContent ←
    match jget e "content" with
    | some (.str s) => pure s
    | _ => do
      let texts ← exMap (fun chunk => (asRecord chunk).map (fun c => jget c "text")) contentArray
      pure (String.intercalate " " ((texts.filter truthy).map jsDisplayOpt))
  let toolCalls : List JsonVal := toolCallsOf e
  let items1 : List TerminalItem :=
    if toolCalls.length ≠ 0 then
      [{ id := mkItemId env label timestamp k, type := "tool_call", source := label,
         detail := strTake ("tools: " ++ joinComma (toolCalls.map toolCallName)) 260,
         role := role, timestamp := timestamp }]
    else []
  let items2 ← chunkLoop env label role timestamp (k + items1.length) contentArray
  let items3 : List TerminalItem :=
    if role = "system" ∧ textContent ≠ "" then
      [{ id := mkItemId env label timestamp (k + items1.length + items2.length),
         type := "system", source := label, detail := strTake textContent 260,
         role := role, timestamp := timestamp }]
    else []
  .ok (items1 ++ items2 ++ items3)

/-- The entry loop of the history normalizer. -/
def historyLoop (env : JsEnv) (record : Option JsonVal) (sessionLabel : Option String) :
    Nat → List JsonVal → Except String (List TerminalItem)
  | _, [] => .ok []
  | k, entry :: rest => do
    let items ← processEntry env record sessionLabel k entry
    let restItems ← historyLoop env record sessionLabel (k + items.length) rest
    .ok (items ++ restItems)

/-- `xs.slice(-n)`: the last `n` elements. -/
def takeLast {α : Type} (n : Nat) (xs : List α) : List α :=
  xs.drop (xs.length - n)

/-- Comparator key of the final history sort (`new Date(ts).getTime()`;
every timestamp produced above is valid ISO, an invalid one would compare
as `NaN`, modelled here as `0`). -/
def itemSortKey (item : TerminalItem) : Int :=
  (parseIsoMs item.timestamp).getD 0

/-- Stable insertion step for the descending-by-timestamp sort. -/
def insertByTsDesc (x : TerminalItem) : List TerminalItem → List TerminalItem
  | [] => [x]
  | y :: ys => if itemSortKey y < itemSortKey x then x :: y :: ys else y :: insertByTsDesc x ys

/-- The stable descending-by-timestamp sort applied by
`normalizeHistory` (`Array.prototype.sort` is stable). -/
def sortByTsDesc (xs : List TerminalItem) : List TerminalItem :=
  xs.foldl (fun acc x => insertByTsDesc x acc) []

/-- `normalizeHistory`: classify the last 60 raw history entries into
synthesized terminal items and sort them newest first. -/
def normalizeHistory (env : JsEnv) (result : Option JsonVal) (sessionLabel : Option String) :
    Except String (List TerminalItem) := do
  let record := result
  let historyVal := jsOr (jchain record "history") (jsOr (jchain record "messages") (some (.arr [])))
  let entries ←
    match historyVal with
    | some (.arr xs) => Except.ok xs
    | _ => Except.error "TypeError"
  let items ← historyLoop env record sessionLabel 0 (takeLast 60 entries)
  .ok (sortByTsDesc items)

/-- A normalized process record. -/
structure ProcessItem where
  id : String
  name : String
  status : String
  cpu : Option Rat
  memory : Option Rat

/-- The element mapping of `normalizeProcesses`. -/
def processOfRecord (env : JsEnv) (idx : Nat) (r : JsonVal) : ProcessItem :=
  { id :=
      (orStr (coerceString (jget r "id"))
        (orStr (coerceString (jget r "pid")) (some ("proc-" ++ env.rand idx)))).getD ""
    name := (orStr (coerceString (jget r "name")) (orStr (coerceString (jget r "command")) (some "process"))).getD ""
    status := (orStr (coerceString (jget r "status")) (orStr (coerceString (jget r "state")) (some "unknown"))).getD ""
    cpu := orNum (coerceNumber (jget r "cpu")) (coerceNumber (jget r "cpu_pct"))
    memory := orNum (coerceNumber (jget r "memory")) (coerceNumber (jget r "mem_mb")) }

/-- `normalizeProcesses`. -/
def normalizeProcesses (env : JsEnv) (result : Option JsonVal) : Except String (List ProcessItem) :=
  mapWithIndex (fun i e => (asRecord e).map (processOfRecord env i)) 0 (normalizeArray result)

/-- A normalized cron job definition. -/
structure CronJob where
  id : String
  name : String
  schedule : Option String
  lastRun : Option String
  lastStatus : Option String
  lastFailure : Option String

/-- The element mapping of `normalizeCronJobs`. -/
def cronJobOfRecord (env : JsEnv) (idx : Nat) (r : JsonVal) : CronJob :=
  { id :=
      (orStr (coerceString (jget r "id"))
        (orStr (coerceString (jget r "job_id"))
          (orStr (coerceString (jget r "name")) (some ("job-" ++ env.rand idx))))).getD ""
    name := (orStr (coerceString (jget r "name")) (orStr (coerceString (jget r "job")) (some "cron-job"))).getD ""
    schedule :=
      orStr (coerceString (jget r "schedule"))
        (orStr (coerceString (jget r "cron")) (coerceString (jget r "expression")))
    lastRun :=
      orStr (coerceTimestamp (jget r "last_run"))
        (orStr (coerceTimestamp (jget r "lastRun")) (coerceTimestamp (jget r "updated_at")))
    lastStatus := orStr (coerceString (jget r "status")) (coerceString (jget r "last_status"))
    lastFailure := orStr (coerceString (jget r "last_failure")) (coerceString (jget r "lastError")) }

/-- `normalizeCronJobs`. -/
def normalizeCronJobs (env : JsEnv) (result : Option JsonVal) : Except String (List CronJob) :=
  mapWithIndex (fun i e => (asRecord e).map (cronJobOfRecord env i)) 0 (normalizeArray result)

/-- A normalized cron run record. -/
structure CronRun where
  id : String
  jobId : Option String
  status : String
  startedAt : Option String
  finishedAt : Option String
  error : Option String

/-- The element mapping of `normalizeCronRuns`. -/
def cronRunOfRecord (env : JsEnv) (idx : Nat) (r : JsonVal) : CronRun :=
  { id :=
      (orStr (coerceString (jget r "id"))
        (orStr (coerceString (jget r "run_id")) (some ("run-" ++ env.rand idx)))).getD ""
    jobId :=
      orStr (coerceString (jget r "job_id"))
        (orStr (coerceString (jget r "job")) (coerceString (jget r "name")))
    status := (orStr (coerceString (jget r "status")) (orStr (coerceString (jget r "state")) (some "unknown"))).getD ""
    startedAt :=
      orStr (coerceTimestamp (jget r "started_at"))
        (orStr (coerceTimestamp (jget r "startedAt")) (coerceTimestamp (jget r "timestamp")))
    finishedAt :=
      orStr (coerceTimestamp (jget r "finished_at"))
        (orStr (coerceTimestamp (jget r "completed_at")) (coerceTimestamp (jget r "finishedAt")))
    error := orStr (coerceString (jget r "error")) (coerceString (jget r "message")) }

/-- `normalizeCronRuns`. -/
def normalizeCronRuns (env : JsEnv) (result : Option JsonVal) : Except String (List CronRun) :=
  mapWithIndex (fun i e => (asRecord e).map (cronRunOfRecord env i)) 0 (normalizeArray result)

/-- A normalized queue record. -/
structure QueueItem where
  id : String
  name : String
  direction : Option String
  depth : Option Rat
  inflight : Option Rat
  updatedAt : Option String

/-- The element mapping of `normalizeQueues`. -/
def queueOfRecord (env : JsEnv) (idx : Nat) (r : JsonVal) : QueueItem :=
  { id :=
      (orStr (coerceString (jget r "id"))
        (orStr (coerceString (jget r "name")) (some ("queue-" ++ env.rand idx)))).getD ""
    name := (orStr (coerceString (jget r "name")) (orStr (coerceString (jget r "queue")) (some "queue"))).getD ""
    direction := coerceString (jget r "direction")
    depth :=
      orNum (coerceNumber (jget r "depth"))
        (orNum (coerceNumber (jget r "size")) (coerceNumber (jget r "count")))
    inflight := orNum (coerceNumber (jget r "inflight")) (coerceNumber (jget r "in_progress"))
    updatedAt := orStr (coerceTimestamp (jget r "updated_at")) (coerceTimestamp (jget r "last_updated")) }

/-- `normalizeQueues`. -/
def normalizeQueues (env : JsEnv) (result : Option JsonVal) : Except String (List QueueItem) :=
  mapWithIndex (fun i e => (asRecord e).map (queueOfRecord env i)) 0 (normalizeArray result)

/-- A normalized system event record. -/
structure SystemEvent where
  id : String
  level : String
  message : String
  source : Option String
  timestamp : String

/-- The element mapping of `normalizeEvents`. -/
def eventOfRecord (env : JsEnv) (idx : Nat) (r : JsonVal) : SystemEvent :=
  { id :=
      (orStr (coerceString (jget r "id"))
        (orStr (coerceString (jget r "event_id")) (some ("evt-" ++ env.rand idx)))).getD ""
    level := (orStr (coerceString (jget r "level")) (orStr (coerceString (jget r "severity")) (some "info"))).getD ""
    message :=
      (orStr (coerceString (jget r "message"))
        (orStr (coerceString (jget r "summary"))
          (orStr (coerceString (jget r "detail")) (some "event")))).getD ""
    source := orStr (coerceString (jget r "source")) (coerceString (jget r "origin"))
    timestamp :=
      (orStr (coerceTimestamp (jget r "timestamp"))
        (orStr (coerceTimestamp (jget r "created_at")) (some (toIsoString env.nowMs)))).getD "" }

/-- `normalizeEvents`. -/
def normalizeEvents (env : JsEnv) (result : Option JsonVal) : Except String (List SystemEvent) :=
  mapWithIndex (fun i e => (asRecord e).map (eventOfRecord env i)) 0 (normalizeArray result)

/-- A normalized usage record. -/
structure UsageItem where
  id : String
  model : String
  tokens : Option Rat
  cost : Option Rat
  window : Option String

/-- The element mapping of `normalizeUsage`. -/
def usageOfRecord (env : JsEnv) (idx : Nat) (r : JsonVal) : UsageItem :=
  { id :=
      (orStr (coerceString (jget r "id"))
        (orStr (coerceString (jget r "model")) (some ("usage-" ++ env.rand idx)))).getD ""
    model := (orStr (coerceString (jget r "model")) (orStr (coerceString (jget r "name")) (some "model"))).getD ""
    tokens :=
      orNum (coerceNumber (jget r "tokens"))
        (orNum (coerceNumber (jget r "total_tokens")) (coerceNumber (jget r "usage")))
    cost :=
      orNum (coerceNumber (jget r "cost"))
        (orNum (coerceNumber (jget r "total_cost")) (coerceNumber (jget r "usd")))
    window :=
      orStr (coerceString (jget r "window"))
        (orStr (coerceString (jget r "period")) (coerceString (jget r "range"))) }

/-- `normalizeUsage`. -/
def normalizeUsage (env : JsEnv) (result : Option JsonVal) : Except String (List UsageItem) :=
  mapWithIndex (fun i e => (asRecord e).map (usageOfRecord env i)) 0 (normalizeArray result)

/-! ### The aggregation handler (telemetry `GET`) -/

/-- `a.includes(b)` on strings: substring containment. -/
def strIncludes (s pat : String) : Bool :=
  decide (pat.data <:+: s.data)

/-- Main-session selection of the aggregation handler: the first session
whose key contains `:main:main`, else the first session. -/
def selectMainSession (sessions : List Session) : Option Session :=
  (sessions.find? (fun s => strIncludes s.key ":main:main")).or sessions.head?

/-- A present-or-absent object field (`JSON.stringify` drops fields whose
value is `undefined`). -/
def optField (k : String) : Option JsonVal → List (String × JsonVal)
  | some v => [(k, v)]
  | none => []

/-- An optional string field. -/
def optStrField (k : String) (v : Option String) : List (String × JsonVal) :=
  optField k (v.map .str)

/-- An optional number field. -/
def optNumField (k : String) (v : Option Rat) : List (String × JsonVal) :=
  optField k (v.map .num)

/-- `value || null` on an environment/tool string. -/
def strOrNull : Option String → JsonVal
  | some s => if s = "" then .null else .str s
  | none => .null

/-- JSON shape of a normalized session. -/
def jsonOfSession (s : Session) : JsonVal :=
  .obj ([("key", .str s.key)] ++ optStrField "label" s.label ++ optStrField "channel" s.channel ++
    optStrField "kind" s.kind ++ optStrField "model" s.model ++
    optNumField "updatedAt" (s.updatedAt.map (fun ms => (ms : Rat))) ++
    optNumField "totalTokens" s.totalTokens ++ optStrField "thinkingLevel" s.thinkingLevel ++
    [("abortedLastRun", .bool s.abortedLastRun)] ++ optNumField "turns" s.turns ++
    optStrField "lastActivity" s.lastActivity)

/-- JSON shape of a terminal item. -/
def jsonOfTerminalItem (t : TerminalItem) : JsonVal :=
  .obj [("id", .str t.id), ("type", .str t.type), ("source", .str t.source),
    ("detail", .str t.detail), ("role", .str t.role), ("timestamp", .str t.timestamp)]

/-- JSON shape of a process record. -/
def jsonOfProcess (p : ProcessItem) : JsonVal :=
  .obj ([("id", .str p.id), ("name", .str p.name), ("status", .str p.status)] ++
    optNumField "cpu" p.cpu ++ optNumField "memory" p.memory)

/-- JSON shape of a cron job. -/
def jsonOfCronJob (j : CronJob) : JsonVal :=
  .obj ([("id", .str j.id), ("name", .str j.name)] ++ optStrField "schedule" j.schedule ++
    optStrField "lastRun" j.lastRun ++ optStrField "lastStatus" j.lastStatus ++
    optStrField "lastFailure" j.lastFailure)

/-- JSON shape of a cron run. -/
def jsonOfCronRun (r : CronRun) : JsonVal :=
  .obj ([("id", .str r.id)] ++ optStrField "jobId" r.jobId ++ [("status", .str r.status)] ++
    optStrField "startedAt" r.startedAt ++ optStrField "finishedAt" r.finishedAt ++
    optStrField "error" r.error)

/-- JSON shape of a queue record. -/
def jsonOfQueue (q : QueueItem) : JsonVal :=
  .obj ([("id", .str q.id), ("name", .str q.name)] ++ optStrField "direction" q.direction ++
    optNumField "depth" q.depth ++ optNumField "inflight" q.inflight ++
    optStrField "updatedAt" q.updatedAt)

/-- JSON shape of a system event. -/
def jsonOfEvent (e : SystemEvent) : JsonVal :=
  .obj ([("id", .str e.id), ("level", .str e.level), ("message", .str e.message)] ++
    optStrField "source" e.source ++ [("timestamp", .str e.timestamp)])

/-- JSON shape of a usage record. -/
def jsonOfUsage (u : UsageItem) : JsonVal :=
  .obj ([("id", .str u.id), ("model", .str u.model)] ++ optNumField "tokens" u.tokens ++
    optNumField "cost" u.cost ++ optStrField "window" u.window)

/-- Everything the aggregation handler computes before assembling the
response literal. -/
structure TelemetryPieces where
  gatewayAvailable : Bool
  gatewayLatency : Option Int
  gatewayError : Option JsonVal
  sessions : List Session
  mainSession : Option Session
  terminalItems : List TerminalItem
  sessionStatus : Option JsonVal
  processesTool : Option String
  processes : List ProcessItem
  cronJobsTool : Option String
  cronRunsTool : Option String
  cronJobs : List CronJob
  cronRuns : List CronRun
  queuesTool : Option String
  queues : List QueueItem
  eventsTool : Option String
  events : List SystemEvent
  usageTool : Option String
  usage : List UsageItem
  warnings : List String

/-- The sequential body of the aggregation handler `GET`, in source
order: `sessions_list`, main-session selection, the session-dependent
lookups, then each fallback-list category, then the normalizations the
response literal performs. -/
def collectTelemetry (cfg : Config) (net : Net) (env : JsEnv) :
    Except String TelemetryPieces := do
  let sessionsResponse := invokeGateway cfg net "sessions_list" (.obj [])
  let gatewayAvailable := sessionsResponse.ok && !isErrorResult sessionsResponse.result
  let sessions ←
    if gatewayAvailable then normalizeSessions sessionsResponse.result else pure []
  let w1 : List String :=
    if !gatewayAvailable then
      ["sessions_list unavailable" ++
        (if truthy sessionsResponse.error then ": " ++ jsDisplayOpt sessionsResponse.error else "")]
    else []
  let mainSession := selectMainSession sessions
  let (terminalItems, w2) ←
    match mainSession with
    | some s =>
      if s.key ≠ "" then do
        let historyResponse :=
          invokeGateway cfg net "sessions_history"
            (.obj [("sessionKey", .str s.key), ("limit", .num 40)])
        if historyResponse.ok && !isErrorResult historyResponse.result then do
          let items ← normalizeHistory env historyResponse.result (orStr s.label (some s.key))
          pure (items, w1)
        else
          pure (([] : List TerminalItem), w1 ++ ["sessions_history unavailable for terminal feed"])
      else pure (([] : List TerminalItem), w1 ++ ["No sessions available for terminal feed"])
    | none => pure (([] : List TerminalItem), w1 ++ ["No sessions available for terminal feed"])
  let (sessionStatus, w3) ←
    match mainSession with
    | some s =>
      if s.key ≠ "" then
        let statusResponse :=
          invokeGateway cfg net "session_status" (.obj [("sessionKey", .str s.key)])
        if statusResponse.ok && !isErrorResult statusResponse.result then
          pure (statusResponse.result, w2)
        else
          pure ((some JsonVal.null : Option JsonVal), w2 ++ ["session_status unavailable"])
      else pure ((some JsonVal.null : Option JsonVal), w2)
    | none => pure ((some JsonVal.null : Option JsonVal), w2)
  let (processPayload, w4) :=
    firstAvailable cfg net ["process_list", "processes_list", "system_process_list"]
      (.obj [("limit", .num 20)]) w3 "process list"
  let processes ←
    match processPayload with
    | some p => normalizeProcesses env p.2
    | none => pure []
  let (cronJobsPayload, w5) :=
    firstAvailable cfg net ["cron_list", "cron_jobs_list", "cron_list_jobs"]
      (.obj [("limit", .num 50)]) w4 "cron jobs"
  let (cronRunsPayload, w6) :=
    firstAvailable cfg net ["cron_runs_list", "cron_history", "cron_runs"]
      (.obj [("limit", .num 50)]) w5 "cron runs"
  let (queuesPayload, w7) :=
    firstAvailable cfg net ["queue_status", "queue_depth", "queues_list", "io_queue_status"]
      (.obj [("limit", .num 20)]) w6 "queues"
  let (eventsPayload, w8) :=
    firstAvailable cfg net ["system_events_list", "events_list", "system_log_list"]
      (.obj [("limit", .num 50)]) w7 "system events"
  let (usagePayload, w9) :=
    firstAvailable cfg net ["usage_summary", "model_usage", "cost_usage", "billing_usage", "usage_list"]
      (.obj [("limit", .num 20)]) w8 "usage"
  let cronJobs ←
    match cronJobsPayload with
    | some p => normalizeCronJobs env p.2
    | none => pure []
  let cronRuns ←
    match cronRunsPayload with
    | some p => normalizeCronRuns env p.2
    | none => pure []
  let queues ←
    match queuesPayload with
    | some p => normalizeQueues env p.2
    | none => pure []
  let events ←
    match eventsPayload with
    | some p => normalizeEvents env p.2
    | none => pure []
  let usage ←
    match usagePayload with
    | some p => normalizeUsage env p.2
    | none => pure []
  pure
    { gatewayAvailable := gatewayAvailable
      gatewayLatency := sessionsResponse.latencyMs
      gatewayError := sessionsResponse.error
      sessions := sessions
      mainSession := mainSession
      terminalItems := terminalItems
      sessionStatus := sessionStatus
      processesTool := processPayload.map (·.1)
      processes := processes
      cronJobsTool := cronJobsPayload.map (·.1)
      cronRunsTool := cronRunsPayload.map (·.1)
      cronJobs := cronJobs
      cronRuns := cronRuns
      queuesTool := queuesPayload.map (·.1)
      queues := queues
      eventsTool := eventsPayload.map (·.1)
      events := events
      usageTool := usagePayload.map (·.1)
      usage := usage
      warnings := w9 }

/-- The response object literal of the aggregation handler. -/
def buildResponse (cfg : Config) (p : TelemetryPieces) : JsonVal :=
  .obj
    [("gateway", .obj
        ([("available", .bool p.gatewayAvailable)] ++
          optNumField "latencyMs" (p.gatewayLatency.map (fun l => (l : Rat))) ++
          [("error",
            if p.gatewayAvailable then .null
            else (jsOr p.gatewayError (some (.str "Gateway unavailable"))).getD .null)])),
      ("sessions", .obj
        [("sessions", .arr (p.sessions.map jsonOfSession)),
         ("total", .num (p.sessions.length : Rat))]),
      ("terminal", .obj
        [("items", .arr (p.terminalItems.map jsonOfTerminalItem)),
         ("sourceSession",
           match p.mainSession with
           | some s => if s.key = "" then .null else .str s.key
           | none => .null)]),
      ("sessionStatus", p.sessionStatus.getD .null),
      ("processes", .obj
        [("tool", strOrNull p.processesTool),
         ("items", .arr (p.processes.map jsonOfProcess))]),
      ("cron", .obj
        [("tool", strOrNull (orStr p.cronJobsTool p.cronRunsTool)),
         ("jobs", .arr (p.cronJobs.map jsonOfCronJob)),
         ("runs", .arr (p.cronRuns.map jsonOfCronRun))]),
      ("queues", .obj
        [("tool", strOrNull p.queuesTool),
         ("items", .arr (p.queues.map jsonOfQueue))]),
      ("systemEvents", .obj
        [("tool", strOrNull p.eventsTool),
         ("items", .arr (p.events.map jsonOfEvent))]),
      ("usage", .obj
        [("tool", strOrNull p.usageTool),
         ("items", .arr (p.usage.map jsonOfUsage))]),
      ("risk", .obj
        [("whoopTokenExpiresAt", strOrNull cfg.whoopTokenExpiresAt),
         ("sofiRisk", strOrNull cfg.sofiRiskLevel),
         ("gatewayDown", .bool (!p.gatewayAvailable))]),
      ("warnings", .arr (p.warnings.map .str))]

/-- The aggregation handler: HTTP status plus JSON body on normal return,
`Except.error` on a thrown `TypeError` (which the framework would turn
into a 5xx). -/
def getTelemetry (cfg : Config) (net : Net) (env : JsEnv) : Except String (Nat × JsonVal) :=
  (collectTelemetry cfg net env).map (fun p => (200, buildResponse cfg p))

/-! ### The cron re-run route (`POST /api/cron`) -/

/-- Outcome record of the separate `invokeGateway` of the cron route. -/
structure CronInvokeResult where
  ok : Bool
  result : Option JsonVal := none
  error : Option JsonVal := none

/-- `invokeGateway` of the cron route (same protocol as in the telemetry
route, without latency/status bookkeeping). -/
def cronInvokeGateway (cfg : Config) (net : Net) (tool : String) (args : JsonVal) :
    CronInvokeResult :=
  if ¬ urlConfigured cfg then
    { ok := false, error := some (.str "Missing GATEWAY_URL") }
  else
    match net tool args with
    | .throws msg => { ok := false, error := some (.str (msg.getD "Gateway request failed")) }
    | .responds status statusText _ body =>
      let payload : JsonVal :=
        match body with
        | .jsonOk v => v
        | .jsonFail => .null
      if 200 ≤ status ∧ status ≤ 299 then
        { ok := true, result := some (parseGatewayResult (nullishGet (jchain (some payload) "result") payload)) }
      else
        { ok := false,
          error :=
            jsOr (jchain (some payload) "error")
              (jsOr (jchain (some payload) "message")
                (some (.str (statusLine status statusText)))) }

/-- The fixed candidate list of cron re-run tools. -/
def cronTools : List String := ["cron_run", "cron_job_run", "cron_execute", "cron_trigger"]

/-- The success condition of the cron `POST` loop: the invocation is
`ok` (this route performs no embedded-error check). -/
def cronSucceeds (cfg : Config) (net : Net) (args : JsonVal) (tool : String) : Bool :=
  (cronInvokeGateway cfg net tool args).ok

/-- The candidate loop of the cron `POST`: the first `ok` invocation
wins. -/
def cronPostLoop (cfg : Config) (net : Net) (args : JsonVal) :
    List String → Option (String × Option JsonVal)
  | [] => none
  | tool :: rest =>
    if cronSucceeds cfg net args tool then some (tool, (cronInvokeGateway cfg net tool args).result)
    else cronPostLoop cfg net args rest

/-- The argument object `{jobId, name: jobId, id: jobId}`. -/
def cronArgs (jobId : JsonVal) : JsonVal :=
  .obj [("jobId", jobId), ("name", jobId), ("id", jobId)]

/-- The 503 body returned when no candidate tool succeeds. -/
def cronNoToolBody : JsonVal :=
  .obj [("ok", .bool false),
    ("error", .str ("No cron run tool available (tried " ++ joinComma cronTools ++ ")"))]

/-- Whether a value is the JavaScript `null`. -/
def jsIsNull : JsonVal → Bool
  | .null => true
  | _ => false

/-- The cron `POST` handler: `bodyParse` is the outcome of
`request.json()` (`none` when parsing failed, in which case the catch
substitutes `{}`).  Reading `body.jobId` from a JSON body `null` throws a
`TypeError`. -/
def cronPost (cfg : Config) (net : Net) (bodyParse : Option JsonVal) :
    Except String (Nat × JsonVal) := do
  let body := bodyParse.getD (.obj [])
  let jobIdOpt ←
    if jsIsNull body then Except.error "TypeError"
    else Except.ok (jsOr (jget body "jobId") (jsOr (jget body "name") (jget body "id")))
  if ¬ truthy jobIdOpt then
    pure (400, .obj [("ok", .bool false), ("error", .str "Missing jobId")])
  else
    let jobId := jobIdOpt.getD .null
    match cronPostLoop cfg net (cronArgs jobId) cronTools with
    | some (tool, result) =>
      pure (200, .obj ([("ok", .bool true), ("tool", .str tool)] ++ optField "result" result))
    | none => pure (503, cronNoToolBody)

/-! ### Spec-side models for the history-classification claim

The specification describes the history normalizer as applying "three
mutually exclusive conditions evaluated in order".  The following
definitions transcribe that description (and its cumulative repair) over
the same raw-entry readings the code performs, so they can be compared
with the embedded `processEntry`. -/

/-- The synthesized item type of a `toolCall`/`toolResult`-tagged content
chunk, if any. -/
def specTagType (c : JsonVal) : Option String :=
  match jget c "type" with
  | some (.str "toolCall") => some "tool_call"
  | some (.str "toolResult") => some "tool_result"
  | _ => none

/-- The flattened text content of an entry. -/
def specText (e : JsonVal) : String :=
  match jget e "content" with
  | some (.str s) => s
  | _ =>
    String.intercalate " "
      ((((contentArrayOf e).map (fun c => jget c "text")).filter truthy).map jsDisplayOpt)

/-- The item types the words of the SPEC assign to one entry: three mutually
exclusive conditions evaluated in order. -/
def specExclusiveTypes (e : JsonVal) : List String :=
  if (toolCallsOf e).length ≠ 0 then ["tool_call"]
  else if (contentArrayOf e).filterMap specTagType ≠ [] then
    (contentArrayOf e).filterMap specTagType
  else if roleOf e = "system" ∧ specText e ≠ "" then ["system"]
  else []

/-- The item types per entry as cumulative, order-respecting
contributions (the amended reading forced by the code). -/
def specCumulativeTypes (e : JsonVal) : List String :=
  (if (toolCallsOf e).length ≠ 0 then ["tool_call"] else []) ++
    (contentArrayOf e).filterMap specTagType ++
    (if roleOf e = "system" ∧ specText e ≠ "" then ["system"] else [])

/-! ### Concrete evaluation fixtures -/

/-- A concrete runtime environment. -/
def testEnv : JsEnv := { nowMs := 0, rand := fun _ => "r" }

/-- A configuration with the gateway base URL unset. -/
def noUrlConfig : Config :=
  { gatewayUrl := none, gatewayToken := none, whoopTokenExpiresAt := none, sofiRiskLevel := none }

/-- A configuration with the gateway base URL set. -/
def liveConfig : Config :=
  { gatewayUrl := some "http://gateway.local", gatewayToken := none,
    whoopTokenExpiresAt := none, sofiRiskLevel := none }

/-- A gateway whose transport always throws. -/
def deadNet : Net := fun _ _ => .throws (some "connect ECONNREFUSED")

/-- A gateway on which only the tool `B` succeeds. -/
def onlyBNet : Net := fun tool _ =>
  if tool = "B" then .responds 200 "OK" 5 (.jsonOk (.obj [("x", .num 1)]))
  else .responds 500 "Internal Server Error" 1 (.jsonOk .null)

/-- A gateway on which only `cron_job_run` succeeds. -/
def cronNet : Net := fun tool _ =>
  if tool = "cron_job_run" then .responds 200 "OK" 1 (.jsonOk (.obj [("queued", .bool true)]))
  else .responds 404 "Not Found" 1 (.jsonOk .null)

/-- A raw history entry satisfying both the `tool_calls` condition and
the system-text condition at once. -/
def mixedEntry : JsonVal :=
  .obj [("role", .str "system"), ("content", .str "hello"),
    ("tool_calls", .arr [.obj [("function", .obj [("name", .str "f")])]])]

/-- The items the embedded history loop synthesizes for `mixedEntry`. -/
def mixedEntryItems : List TerminalItem :=
  match processEntry testEnv none none 0 mixedEntry with
  | .ok items => items
  | .error _ => []

/-- A session fixture with the given key and no optional data. -/
def testSession (k : String) : Session :=
  { key := k, label := none, channel := none, kind := none, model := none,
    updatedAt := none, totalTokens := none, thinkingLevel := none,
    abortedLastRun := false, turns := none, lastActivity := none }

/-- The telemetry body produced with the base URL unset. -/
def telemetryNoUrlBody : JsonVal :=
  match getTelemetry noUrlConfig deadNet testEnv with
  | .ok p => p.2
  | .error _ => .null

/-! ## Theorems -/

/-- C4: the coercion utilities are total (they are plain functions of
the value, returning the typed value or the absent sentinel `none`) and
behave as documented on the cited inputs; every defined timestamp result
is the ISO rendering of some instant, and the ISO rendering the example
produces denotes the same instant as its input. -/
theorem coerce_total_and_examples :
    coerceNumber (some (.str "abc")) = none ∧
    coerceNumber (some (.str "42")) = some 42 ∧
    coerceTimestamp (some (.str "not-a-date")) = none ∧
    coerceTimestamp (some (.str "2024-01-01T00:00:00Z")) = some "2024-01-01T00:00:00.000Z" ∧
    parseIsoMs "2024-01-01T00:00:00.000Z" = parseIsoMs "2024-01-01T00:00:00Z" ∧
    ∀ v : Option JsonVal,
      coerceTimestamp v = none ∨ ∃ ms : Int, coerceTimestamp v = some (toIsoString ms) := by
  refine ⟨by rfl, by rfl, by rfl, by rfl, by rfl, ?_⟩
  intro v
  unfold coerceTimestamp
  cases coerceString v with
  | none => exact Or.inl rfl
  | some c =>
    by_cases hc : c = ""
    · simp [hc]
    · simp only [hc, if_false]
      cases hp : parseIsoMs c with
      | none => exact Or.inl rfl
      | some ms => exact Or.inr ⟨ms, rfl⟩

/-- The probing loop of `normalizeArray` returns the value of the first
candidate key holding an array, or `[]`. -/
theorem probeArrays_eq_findSome (record : JsonVal) (l : List String) :
    probeArrays record l =
      (l.findSome? (fun k =>
        match jget record k with
        | some (.arr xs) => some xs
        | _ => none)).getD [] := by
  induction l with
  | nil => rfl
  | cons k rest ih =>
    rw [probeArrays, List.findSome?]
    cases h : jget record k with
    | none => simpa [h] using ih
    | some v =>
      cases v with
      | arr xs => simp [h]
      | null => simpa [h] using ih
      | bool b => simpa [h] using ih
      | num n => simpa [h] using ih
      | str s => simpa [h] using ih
      | obj fs => simpa [h] using ih

/-- C5: `normalizeArray` returns an array input unchanged; on an object
input the fixed key list is probed in priority order and the first
array-valued key wins (the empty array when none matches), and on the
cited tie-break input `sessions` beats `data`. -/
theorem normalizeArray_spec :
    (∀ xs : List JsonVal, normalizeArray (some (.arr xs)) = xs) ∧
    normalizeArray (some (.obj [("sessions", .arr [.num 1]), ("data", .arr [.num 2])])) = [.num 1] ∧
    ∀ fields : List (String × JsonVal),
      normalizeArray (some (.obj fields)) =
        (arrayCandidates.findSome? (fun k =>
          match jget (.obj fields) k with
          | some (.arr xs) => some xs
          | _ => none)).getD [] := by
  refine ⟨fun xs => rfl, by rfl, fun fields => ?_⟩
  simpa [normalizeArray, truthyV] using probeArrays_eq_findSome (.obj fields) arrayCandidates

/-- C10: a numeric source field that is exactly `0` is falsy under the
`||` chaining of the normalizers, so it falls through to the next
candidate and, when none is present, to the absent sentinel: a session
record with `total_tokens = 0` (and no `totalTokens`) normalizes with
`totalTokens` absent, and a queue record with `depth = 0` (and no
`size`/`count`) normalizes with `depth` absent. -/
theorem zero_is_treated_as_missing :
    ∀ (env : JsEnv) (idx : Nat) (fs fq : List (String × JsonVal)),
      (jfield fs "total_tokens" = some (.num 0) → jfield fs "totalTokens" = none →
        (sessionOfRecord (.obj fs)).totalTokens = none) ∧
      (jfield fq "depth" = some (.num 0) → jfield fq "size" = none → jfield fq "count" = none →
        (queueOfRecord env idx (.obj fq)).depth = none) := by
  intro env idx fs fq
  constructor
  · intro h1 h2
    simp [sessionOfRecord, jget, h1, h2, coerceNumber, orNum]
  · intro h1 h2 h3
    simp [queueOfRecord, jget, h1, h2, h3, coerceNumber, orNum]

/-- C10 witness: concrete zero-valued records evaluate to absent
fields. -/
theorem zero_is_treated_as_missing_witness :
    (sessionOfRecord (.obj [("total_tokens", .num 0)])).totalTokens = none ∧
    (queueOfRecord testEnv 0 (.obj [("depth", .num 0)])).depth = none :=
  ⟨(zero_is_treated_as_missing testEnv 0 [("total_tokens", .num 0)] [("depth", .num 0)]).1 rfl rfl,
   (zero_is_treated_as_missing testEnv 0 [("total_tokens", .num 0)] [("depth", .num 0)]).2 rfl rfl rfl⟩

/-- C6: the orchestration selects as "main" the first session whose key
contains `:main:main`, wherever it sits in the list, and falls back to
the first list element when no key contains the marker. -/
theorem main_session_selection :
    ∀ (pre post : List Session) (s h0 : Session) (rest : List Session),
      ((∀ t ∈ pre, strIncludes t.key ":main:main" = false) →
        strIncludes s.key ":main:main" = true →
        selectMainSession (pre ++ s :: post) = some s) ∧
      ((∀ t ∈ h0 :: rest, strIncludes t.key ":main:main" = false) →
        selectMainSession (h0 :: rest) = some h0) := by
  intro pre post s h0 rest
  constructor
  · intro hpre hs
    unfold selectMainSession
    rw [List.find?_append]
    have h1 : (pre.find? fun t => strIncludes t.key ":main:main") = none :=
      List.find?_eq_none.mpr (fun t ht => by simp [hpre t ht])
    have h2 : ((s :: post).find? fun t => strIncludes t.key ":main:main") = some s :=
      List.find?_cons_of_pos _ hs
    simp [h1, h2, Option.or]
  · intro hall
    unfold selectMainSession
    have h1 : ((h0 :: rest).find? fun t => strIncludes t.key ":main:main") = none :=
      List.find?_eq_none.mpr (fun t ht => by simp [hall t ht])
    simp [h1, Option.or]

/-- C6 witness: with the marker on the second of two sessions, the
second is selected; with no marker anywhere, the first is. -/
theorem main_session_selection_witness :
    selectMainSession [testSession "agent:other:x", testSession "agent:main:main"] =
      some (testSession "agent:main:main") ∧
    selectMainSession [testSession "agent:other:x", testSession "agent:other:y"] =
      some (testSession "agent:other:x") :=
  ⟨(main_session_selection [testSession "agent:other:x"] [] (testSession "agent:main:main")
      (testSession "agent:other:x") []).1 (by decide) (by decide),
   (main_session_selection [] [] (testSession "agent:other:x") (testSession "agent:other:x")
      [testSession "agent:other:y"]).2 (by decide)⟩

/-- Infix containment survives prepending context. -/
theorem infix_of_append_left {α : Type} {x y : List α} (z : List α) (h : x <:+: y) :
    x <:+: z ++ y := by
  obtain ⟨s, t, rfl⟩ := h
  exact ⟨z ++ s, t, by simp⟩

/-- Infix containment survives appending context. -/
theorem infix_of_append_right {α : Type} {x y : List α} (z : List α) (h : x <:+: y) :
    x <:+: y ++ z := by
  obtain ⟨s, t, rfl⟩ := h
  exact ⟨s, t ++ z, by simp⟩

/-- Every member of a `join(", ")` is a substring of the join. -/
theorem mem_joinComma_substr :
    ∀ (tools : List String) (t : String), t ∈ tools → t.data <:+: (joinComma tools).data := by
  intro tools
  induction tools with
  | nil => intro t ht; cases ht
  | cons a rest ih =>
    intro t ht
    cases rest with
    | nil =>
      have : t = a := by simpa using ht
      subst this
      simp [joinComma]
    | cons b bs =>
      have hjoin : joinComma (a :: b :: bs) = a ++ ", " ++ joinComma (b :: bs) := rfl
      rw [hjoin]
      rcases List.mem_cons.mp ht with rfl | hmem
      · refine ⟨[], (", " ++ joinComma (b :: bs)).data, ?_⟩
        simp [String.data_append]
      · have h1 := ih t hmem
        have h2 : t.data <:+: (a ++ ", ").data ++ (joinComma (b :: bs)).data :=
          infix_of_append_left _ h1
        simpa [String.data_append, List.append_assoc] using h2

/-- Every attempted tool name is a substring of the warning note. -/
theorem mem_faNote_substr (label : String) (tools : List String) (t : String) (ht : t ∈ tools) :
    t.data <:+: (faNote label tools).data := by
  have h1 := mem_joinComma_substr tools t ht
  have h2 : (joinComma tools).data <:+: (faNote label tools).data := by
    refine ⟨(label ++ " unavailable (tried ").data, ")".data, ?_⟩
    simp [faNote, String.data_append, List.append_assoc]
  exact h1.trans h2

/-- With a failing prefix and a succeeding candidate, the loop returns
the first succeeding candidate with its result. -/
theorem faLoop_first (cfg : Config) (net : Net) (args : JsonVal) (tool : String)
    (post : List String) :
    ∀ pre : List String, (∀ u ∈ pre, faSucceeds cfg net args u = false) →
      faSucceeds cfg net args tool = true →
      firstAvailableLoop cfg net args (pre ++ tool :: post) =
        some (tool, (invokeGateway cfg net tool args).result) := by
  intro pre
  induction pre with
  | nil =>
    intro _ hsucc
    simp [firstAvailableLoop, hsucc]
  | cons u us ih =>
    intro hpre hsucc
    have hu : faSucceeds cfg net args u = false := hpre u (List.mem_cons_self u us)
    have hrest : ∀ v ∈ us, faSucceeds cfg net args v = false :=
      fun v hv => hpre v (List.mem_cons_of_mem u hv)
    simp [firstAvailableLoop, hu, ih hrest hsucc]

/-- With every candidate failing, the loop returns nothing. -/
theorem faLoop_none (cfg : Config) (net : Net) (args : JsonVal) :
    ∀ tools : List String, (∀ t ∈ tools, faSucceeds cfg net args t = false) →
      firstAvailableLoop cfg net args tools = none := by
  intro tools
  induction tools with
  | nil => intro _; rfl
  | cons a rest ih =>
    intro hall
    have ha : faSucceeds cfg net args a = false := hall a (List.mem_cons_self a rest)
    have hrest : ∀ t ∈ rest, faSucceeds cfg net args t = false :=
      fun t htm => hall t (List.mem_cons_of_mem a htm)
    simp [firstAvailableLoop, ha, ih hrest]

/-- C3: if some candidate tool succeeds (is `ok` with no embedded error
field), `firstAvailable` returns the name of the first succeeding candidate
with its result and leaves the warnings untouched; if every candidate
fails, exactly one warning is appended, and it names every attempted
candidate. -/
theorem firstAvailable_fallback :
    ∀ (cfg : Config) (net : Net) (args : JsonVal) (warnings : List String) (label : String)
      (tools pre post : List String) (tool : String),
      (tools = pre ++ tool :: post →
        (∀ u ∈ pre, faSucceeds cfg net args u = false) →
        faSucceeds cfg net args tool = true →
        firstAvailable cfg net tools args warnings label =
          (some (tool, (invokeGateway cfg net tool args).result), warnings)) ∧
      ((∀ t ∈ tools, faSucceeds cfg net args t = false) →
        firstAvailable cfg net tools args warnings label =
          (none, warnings ++ [faNote label tools]) ∧
        ∀ t ∈ tools, t.data <:+: (faNote label tools).data) := by
  intro cfg net args warnings label tools pre post tool
  constructor
  · intro heq hpre hsucc
    subst heq
    unfold firstAvailable
    rw [faLoop_first cfg net args tool post pre hpre hsucc]
  · intro hall
    unfold firstAvailable
    rw [faLoop_none cfg net args tools hall]
    exact ⟨rfl, fun t ht => mem_faNote_substr label tools t ht⟩

/-- C3 witness: with only `B` succeeding the result is tagged `B` and no
warning is recorded; with every candidate failing exactly the one
all-naming warning is appended. -/
theorem firstAvailable_fallback_witness :
    firstAvailable liveConfig onlyBNet ["A", "B", "C"] (.obj []) [] "widgets" =
      (some ("B", (invokeGateway liveConfig onlyBNet "B" (.obj [])).result), []) ∧
    firstAvailable liveConfig deadNet ["A", "B", "C"] (.obj []) [] "widgets" =
      (none, [] ++ [faNote "widgets" ["A", "B", "C"]]) :=
  ⟨(firstAvailable_fallback liveConfig onlyBNet (.obj []) [] "widgets"
      ["A", "B", "C"] ["A"] ["C"] "B").1 rfl (by decide) (by decide),
   ((firstAvailable_fallback liveConfig deadNet (.obj []) [] "widgets"
      ["A", "B", "C"] [] [] "").2 (by decide)).1⟩

/-- C7: the failure handling of the gateway client.  A missing base URL gives
an immediate `ok:false` whose outcome is independent of the network (no
call is made); a non-2xx status gives `ok:false` with the error drawn in
priority order from the `error` field of the payload, then its `message`
field, then the HTTP status line; a transport exception gives `ok:false`
carrying the exception message; an unparsable 2xx body is treated as a
null payload and still succeeds. -/
theorem invokeGateway_failures :
    ∀ (cfg : Config) (net : Net) (tool : String) (args : JsonVal),
      (urlConfigured cfg = false →
        invokeGateway cfg net tool args =
          { ok := false, error := some (.str "Missing GATEWAY_URL") } ∧
        ∀ net2 : Net, invokeGateway cfg net tool args = invokeGateway cfg net2 tool args) ∧
      (∀ (st : Nat) (stx : String) (lat : Int) (p : JsonVal), urlConfigured cfg = true →
        net tool args = .responds st stx lat (.jsonOk p) →
        ¬ (200 ≤ st ∧ st ≤ 299) →
        (invokeGateway cfg net tool args).ok = false ∧
        (invokeGateway cfg net tool args).status = some st ∧
        (invokeGateway cfg net tool args).error =
          (if truthy (jchain (some p) "error") then jchain (some p) "error"
           else if truthy (jchain (some p) "message") then jchain (some p) "message"
           else some (.str (statusLine st stx)))) ∧
      (∀ m : String, urlConfigured cfg = true → net tool args = .throws (some m) →
        invokeGateway cfg net tool args = { ok := false, error := some (.str m) }) ∧
      (∀ (st : Nat) (stx : String) (lat : Int), urlConfigured cfg = true →
        net tool args = .responds st stx lat .jsonFail → 200 ≤ st → st ≤ 299 →
        invokeGateway cfg net tool args =
          { ok := true, result := some .null, latencyMs := some lat, status := some st }) := by
  intro cfg net tool args
  refine ⟨?_, ?_, ?_, ?_⟩
  · intro h
    exact ⟨by simp [invokeGateway, h], fun net2 => by simp [invokeGateway, h]⟩
  · intro st stx lat p hurl hnet hst
    simp only [invokeGateway, hurl, Bool.not_true, Bool.false_eq_true, if_false, hnet,
      if_neg hst, jsOr]
    exact ⟨rfl, rfl, rfl⟩
  · intro m hurl hnet
    simp [invokeGateway, hurl, hnet]
  · intro st stx lat hurl hnet h1 h2
    simp only [invokeGateway, hurl, Bool.not_true, Bool.false_eq_true, if_false, hnet,
      if_pos (And.intro h1 h2)]
    rfl

/-- C7 witness: with no base URL the client fails immediately; an
unparsable 2xx body still succeeds with a null payload. -/
theorem invokeGateway_failures_witness :
    invokeGateway noUrlConfig deadNet "sessions_list" (.obj []) =
      { ok := false, error := some (.str "Missing GATEWAY_URL") } ∧
    invokeGateway liveConfig (fun _ _ => .responds 200 "OK" 7 .jsonFail) "sessions_list"
        (.obj []) =
      { ok := true, result := some .null, latencyMs := some 7, status := some 200 } :=
  ⟨((invokeGateway_failures noUrlConfig deadNet "sessions_list" (.obj [])).1 rfl).1,
   (invokeGateway_failures liveConfig (fun _ _ => .responds 200 "OK" 7 .jsonFail)
      "sessions_list" (.obj [])).2.2.2 200 "OK" 7 rfl rfl (by decide) (by decide)⟩

/-! ### History classification (C2) -/

@[simp] theorem ok_bind {α β : Type} (a : α) (f : α → Except String β) :
    (Except.ok a >>= f) = f a := rfl

@[simp] theorem error_bind {α β : Type} (e : String) (f : α → Except String β) :
    (Except.error e >>= f : Except String β) = Except.error e := rfl

@[simp] theorem map_ok {α β : Type} (a : α) (f : α → β) :
    Except.map f (Except.ok a : Except String α) = Except.ok (f a) := rfl

@[simp] theorem map_error {α β : Type} (e : String) (f : α → β) :
    Except.map f (Except.error e : Except String α) = (Except.error e : Except String β) := rfl

@[simp] theorem pure_eq_ok {α : Type} (a : α) : (pure a : Except String α) = Except.ok a := rfl

/-- A successful dereference returns the value itself. -/
theorem asRecord_ok {a v : JsonVal} (h : asRecord a = .ok v) : v = a := by
  cases a <;> simp_all [asRecord]

/-- A successful bind factors through a successful first component. -/
theorem bind_ok_elim {α β : Type} {m : Except String α} {f : α → Except String β} {b : β}
    (h : m >>= f = .ok b) : ∃ a, m = .ok a ∧ f a = .ok b := by
  cases m with
  | error e => simp at h
  | ok a => exact ⟨a, rfl, h⟩

/-- When the chunk-text map succeeds it reads exactly the `text` fields
of the chunks. -/
theorem exMap_text_eq :
    ∀ (chunks : List JsonVal) (texts : List (Option JsonVal)),
      exMap (fun chunk => (asRecord chunk).map (fun c => jget c "text")) chunks = .ok texts →
      texts = chunks.map (fun c => jget c "text") := by
  intro chunks
  induction chunks with
  | nil =>
    intro texts h
    simp [exMap] at h
    subst h
    rfl
  | cons a rest ih =>
    intro texts h
    rw [exMap] at h
    cases har : asRecord a with
    | error e => rw [har] at h; simp at h
    | ok v =>
      rw [har] at h
      simp only [map_ok, ok_bind] at h
      cases hrest : exMap (fun chunk => (asRecord chunk).map (fun c => jget c "text")) rest with
      | error e => rw [hrest] at h; simp at h
      | ok ys =>
        rw [hrest] at h
        simp only [ok_bind, Except.ok.injEq] at h
        subst h
        rw [asRecord_ok har]
        simp [ih ys hrest]

/-- The chunk loop synthesizes exactly one item per tagged chunk, with
the corresponding types in content order. -/
theorem chunkLoop_types (env : JsEnv) (label role ts : String) :
    ∀ (chunks : List JsonVal) (k : Nat) (items : List TerminalItem),
      chunkLoop env label role ts k chunks = .ok items →
      items.map TerminalItem.type = chunks.filterMap specTagType := by
  intro chunks
  induction chunks with
  | nil =>
    intro k items h
    simp [chunkLoop] at h
    subst h
    rfl
  | cons chunk rest ih =>
    intro k items h
    rw [chunkLoop] at h
    cases har : asRecord chunk with
    | error e => rw [har] at h; simp at h
    | ok c =>
      rw [har] at h
      simp only [ok_bind] at h
      have hc := asRecord_ok har
      subst hc
      split at h
      next hty =>
        cases hrest : chunkLoop env label role ts (k + 1) rest with
        | error e => rw [hrest] at h; simp at h
        | ok ys =>
          rw [hrest] at h
          simp only [ok_bind, Except.ok.injEq] at h
          subst h
          simp [specTagType, hty, ih (k + 1) ys hrest]
      next hty =>
        cases hrest : chunkLoop env label role ts (k + 1) rest with
        | error e => rw [hrest] at h; simp at h
        | ok ys =>
          rw [hrest] at h
          simp only [ok_bind, Except.ok.injEq] at h
          subst h
          simp [specTagType, hty, ih (k + 1) ys hrest]
      next hty1 hty2 =>
        have hnone : specTagType c = none := by
          unfold specTagType
          split
          next hx => exact absurd hx hty1
          next hx => exact absurd hx hty2
          next => rfl
        simp [hnone, ih k items h]

/-- C2, amended: the per-entry body of `normalizeHistory` classifies an
entry by CUMULATIVE, order-respecting contributions — a `tool_call` item
when the `tool_calls` list is non-empty, one item per
`toolCall`/`toolResult`-tagged content chunk, and a `system` item for a
system-role entry with non-empty text; these conditions are not mutually
exclusive, and an entry matching none of them contributes no item. -/
theorem processEntry_types :
    ∀ (env : JsEnv) (record : Option JsonVal) (lbl : Option String) (k : Nat)
      (entry : JsonVal) (items : List TerminalItem),
      processEntry env record lbl k entry = .ok items →
      items.map TerminalItem.type = specCumulativeTypes entry := by
  intro env record lbl k entry items h
  rw [processEntry] at h
  cases har : asRecord entry with
  | error e => rw [har] at h; simp at h
  | ok e =>
    rw [har] at h
    simp only [ok_bind] at h
    have he := asRecord_ok har
    subst he
    split at h
    next s hcon =>
      simp only [pure_eq_ok, ok_bind] at h
      obtain ⟨items2, hcl, h2⟩ := bind_ok_elim h
      simp only [Except.ok.injEq] at h2
      subst h2
      have hmap2 := chunkLoop_types _ _ _ _ _ _ _ hcl
      have hst : specText e = s := by unfold specText; rw [hcon]
      simp [specCumulativeTypes, List.map_append, hmap2, hst,
        apply_ite (List.map TerminalItem.type)]
    next hne =>
      obtain ⟨texts, hex, h2⟩ := bind_ok_elim h
      have htexts := exMap_text_eq _ _ hex
      subst htexts
      obtain ⟨tc, htc, h3⟩ := bind_ok_elim h2
      have htc2 := Except.ok.inj htc
      subst htc2
      obtain ⟨items2, hcl, h4⟩ := bind_ok_elim h3
      have h5 := Except.ok.inj h4
      subst h5
      have hmap2 := chunkLoop_types _ _ _ _ _ _ _ hcl
      have hst : specText e =
          String.intercalate " "
            ((((contentArrayOf e).map (fun c => jget c "text")).filter truthy).map jsDisplayOpt) := by
        unfold specText
        split
        next s hx => exact absurd hx (fun hh => hne s hh)
        next => rfl
      simp [specCumulativeTypes, List.map_append, hmap2, hst,
        apply_ite (List.map TerminalItem.type)]

/-- C2 counterexample: an entry carrying both a non-empty `tool_calls`
list and system-role text yields TWO items (`tool_call` and `system`),
whereas the "mutually exclusive conditions evaluated in order" reading
yields only `tool_call` — the conditions are cumulative, not
exclusive. -/
theorem history_classification_counterexample :
    mixedEntryItems.map TerminalItem.type = ["tool_call", "system"] ∧
    specExclusiveTypes mixedEntry = ["tool_call"] ∧
    (["tool_call", "system"] : List String) ≠ ["tool_call"] :=
  ⟨rfl, rfl, by decide⟩

/-- C2 witness: the cumulative classification evaluated on the concrete
mixed entry. -/
theorem history_classification_witness :
    mixedEntryItems.map TerminalItem.type = specCumulativeTypes mixedEntry :=
  processEntry_types testEnv none none 0 mixedEntry mixedEntryItems rfl

/-! ### The cron re-run endpoint (C9) -/

/-- With a failing prefix and a succeeding candidate, the cron loop
returns the first succeeding candidate. -/
theorem cronLoop_first (cfg : Config) (net : Net) (args : JsonVal) (tool : String)
    (post : List String) :
    ∀ pre : List String, (∀ u ∈ pre, cronSucceeds cfg net args u = false) →
      cronSucceeds cfg net args tool = true →
      cronPostLoop cfg net args (pre ++ tool :: post) =
        some (tool, (cronInvokeGateway cfg net tool args).result) := by
  intro pre
  induction pre with
  | nil =>
    intro _ hsucc
    simp [cronPostLoop, hsucc]
  | cons u us ih =>
    intro hpre hsucc
    have hu : cronSucceeds cfg net args u = false := hpre u (List.mem_cons_self u us)
    have hrest : ∀ v ∈ us, cronSucceeds cfg net args v = false :=
      fun v hv => hpre v (List.mem_cons_of_mem u hv)
    simp [cronPostLoop, hu, ih hrest hsucc]

/-- With every candidate failing, the cron loop returns nothing. -/
theorem cronLoop_none (cfg : Config) (net : Net) (args : JsonVal) :
    ∀ tools : List String, (∀ t ∈ tools, cronSucceeds cfg net args t = false) →
      cronPostLoop cfg net args tools = none := by
  intro tools
  induction tools with
  | nil => intro _; rfl
  | cons a rest ih =>
    intro hall
    have ha : cronSucceeds cfg net args a = false := hall a (List.mem_cons_self a rest)
    have hrest : ∀ t ∈ rest, cronSucceeds cfg net args t = false :=
      fun t htm => hall t (List.mem_cons_of_mem a htm)
    simp [cronPostLoop, ha, ih hrest]

/-- C9, amended: with a truthy job identifier the handler tries the
fixed candidate tools in order and returns HTTP 200 with the first
success; when every candidate fails it returns HTTP 503 with an error
naming every attempted tool; a non-`null` body carrying no identifier
gets HTTP 400 — but a JSON body `null` makes the identifier read throw a
`TypeError` (an unhandled 500) instead of the 400 the claim states. -/
theorem cronPost_spec :
    ∀ (cfg : Config) (net : Net) (bodyParse : Option JsonVal),
      (jsIsNull (bodyParse.getD (.obj [])) = true →
        cronPost cfg net bodyParse = .error "TypeError") ∧
      (jsIsNull (bodyParse.getD (.obj [])) = false →
        truthy (jsOr (jget (bodyParse.getD (.obj [])) "jobId")
          (jsOr (jget (bodyParse.getD (.obj [])) "name")
            (jget (bodyParse.getD (.obj [])) "id"))) = false →
        cronPost cfg net bodyParse =
          .ok (400, .obj [("ok", .bool false), ("error", .str "Missing jobId")])) ∧
      (∀ (jv : JsonVal) (pre post : List String) (tool : String),
        jsIsNull (bodyParse.getD (.obj [])) = false →
        jsOr (jget (bodyParse.getD (.obj [])) "jobId")
          (jsOr (jget (bodyParse.getD (.obj [])) "name")
            (jget (bodyParse.getD (.obj [])) "id")) = some jv →
        truthyV jv = true →
        cronTools = pre ++ tool :: post →
        (∀ u ∈ pre, cronSucceeds cfg net (cronArgs jv) u = false) →
        cronSucceeds cfg net (cronArgs jv) tool = true →
        cronPost cfg net bodyParse =
          .ok (200, .obj ([("ok", .bool true), ("tool", .str tool)] ++
            optField "result" (cronInvokeGateway cfg net tool (cronArgs jv)).result))) ∧
      (∀ jv : JsonVal,
        jsIsNull (bodyParse.getD (.obj [])) = false →
        jsOr (jget (bodyParse.getD (.obj [])) "jobId")
          (jsOr (jget (bodyParse.getD (.obj [])) "name")
            (jget (bodyParse.getD (.obj [])) "id")) = some jv →
        truthyV jv = true →
        (∀ t ∈ cronTools, cronSucceeds cfg net (cronArgs jv) t = false) →
        cronPost cfg net bodyParse = .ok (503, cronNoToolBody) ∧
        ∀ t ∈ cronTools,
          t.data <:+: ("No cron run tool available (tried " ++ joinComma cronTools ++ ")").data) := by
  intro cfg net bodyParse
  refine ⟨?_, ?_, ?_, ?_⟩
  · intro h
    simp [cronPost, h]
  · intro hn ht
    rw [cronPost]
    simp only [hn, Bool.false_eq_true, if_false, ok_bind]
    simp [ht]
  · intro jv pre post tool hn hjv htv heq hpre hsucc
    rw [cronPost]
    simp only [hn, if_false, Bool.false_eq_true, ok_bind, hjv]
    have htr : truthy (some jv) = true := htv
    rw [heq]
    simp [htr, cronLoop_first cfg net (cronArgs jv) tool post pre hpre hsucc]
  · intro jv hn hjv htv hall
    constructor
    · rw [cronPost]
      simp only [hn, if_false, Bool.false_eq_true, ok_bind, hjv]
      have htr : truthy (some jv) = true := htv
      simp [htr, cronLoop_none cfg net (cronArgs jv) cronTools hall, cronNoToolBody]
    · intro t htm
      exact (mem_joinComma_substr cronTools t htm).trans
        ⟨("No cron run tool available (tried ").data, (")").data, by
          simp [String.data_append, List.append_assoc]⟩

/-- C9 counterexample: a request whose JSON body is `null` carries no
job identifier, yet the handler throws a `TypeError` (surfacing as an
unhandled 500) instead of returning the claimed HTTP 400. -/
theorem cronPost_null_body_counterexample :
    cronPost liveConfig cronNet (some .null) = .error "TypeError" := rfl

/-- C9 witness: a job identifier with the second candidate succeeding
yields HTTP 200 tagged with that candidate; with all candidates failing
the handler returns HTTP 503 naming every attempted tool. -/
theorem cronPost_spec_witness :
    cronPost liveConfig cronNet (some (.obj [("jobId", .str "j1")])) =
      .ok (200, .obj ([("ok", .bool true), ("tool", .str "cron_job_run")] ++
        optField "result" (cronInvokeGateway liveConfig cronNet "cron_job_run"
          (cronArgs (.str "j1"))).result)) ∧
    cronPost liveConfig deadNet (some (.obj [("jobId", .str "j1")])) =
      .ok (503, cronNoToolBody) :=
  ⟨(cronPost_spec liveConfig cronNet (some (.obj [("jobId", .str "j1")]))).2.2.1
      (.str "j1") ["cron_run"] ["cron_execute", "cron_trigger"] "cron_job_run"
      rfl rfl rfl rfl (by decide) (by decide),
   ((cronPost_spec liveConfig deadNet (some (.obj [("jobId", .str "j1")]))).2.2.2
      (.str "j1") rfl rfl rfl (by decide)).1⟩

/-! ### The aggregation handler (C1, C8) -/

/-- C1: with the gateway base URL unset (absent or empty), the
aggregation handler returns normally (no exception, hence no 5xx) with
HTTP 200, every category collection is the empty array, and the
`warnings` array is non-empty — for every network behaviour and runtime
environment. -/
theorem telemetry_no_url_degrades :
    ∀ (cfg : Config) (net : Net) (env : JsEnv), urlConfigured cfg = false →
      ∃ body : JsonVal,
        getTelemetry cfg net env = .ok (200, body) ∧
        jchain (jchain (some body) "sessions") "sessions" = some (.arr []) ∧
        jchain (jchain (some body) "terminal") "items" = some (.arr []) ∧
        jchain (jchain (some body) "processes") "items" = some (.arr []) ∧
        jchain (jchain (some body) "cron") "jobs" = some (.arr []) ∧
        jchain (jchain (some body) "cron") "runs" = some (.arr []) ∧
        jchain (jchain (some body) "queues") "items" = some (.arr []) ∧
        jchain (jchain (some body) "systemEvents") "items" = some (.arr []) ∧
        jchain (jchain (some body) "usage") "items" = some (.arr []) ∧
        ∃ ws : List JsonVal, jget body "warnings" = some (.arr ws) ∧ ws ≠ [] := by
  intro cfg net env h
  obtain ⟨url, tok, wh, so⟩ := cfg
  cases url with
  | none =>
    exact ⟨_, rfl, rfl, rfl, rfl, rfl, rfl, rfl, rfl, rfl, ⟨_, rfl, List.cons_ne_nil _ _⟩⟩
  | some u =>
    have hu : u = "" := by simpa [urlConfigured] using h
    subst hu
    exact ⟨_, rfl, rfl, rfl, rfl, rfl, rfl, rfl, rfl, rfl, ⟨_, rfl, List.cons_ne_nil _ _⟩⟩

/-- C1 witness: the degradation evaluated at a concrete unset-URL
configuration. -/
theorem telemetry_no_url_degrades_witness :
    ∃ body : JsonVal,
      getTelemetry noUrlConfig deadNet testEnv = .ok (200, body) ∧
      jchain (jchain (some body) "sessions") "sessions" = some (.arr []) ∧
      jchain (jchain (some body) "terminal") "items" = some (.arr []) ∧
      jchain (jchain (some body) "processes") "items" = some (.arr []) ∧
      jchain (jchain (some body) "cron") "jobs" = some (.arr []) ∧
      jchain (jchain (some body) "cron") "runs" = some (.arr []) ∧
      jchain (jchain (some body) "queues") "items" = some (.arr []) ∧
      jchain (jchain (some body) "systemEvents") "items" = some (.arr []) ∧
      jchain (jchain (some body) "usage") "items" = some (.arr []) ∧
      ∃ ws : List JsonVal, jget body "warnings" = some (.arr ws) ∧ ws ≠ [] :=
  telemetry_no_url_degrades noUrlConfig deadNet testEnv rfl

/-- C8: whenever the aggregation handler returns a response (whatever
the gateway did), every sub-collection field of the body — sessions,
terminal items, process items, cron jobs, cron runs, queue items, system
events, usage items, and the warnings list — is present and is an
array; a collection field is never absent or null. -/
theorem telemetry_collections_are_arrays :
    ∀ (cfg : Config) (net : Net) (env : JsEnv) (st : Nat) (body : JsonVal),
      getTelemetry cfg net env = .ok (st, body) →
      (∃ xs, jchain (jchain (some body) "sessions") "sessions" = some (.arr xs)) ∧
      (∃ xs, jchain (jchain (some body) "terminal") "items" = some (.arr xs)) ∧
      (∃ xs, jchain (jchain (some body) "processes") "items" = some (.arr xs)) ∧
      (∃ xs, jchain (jchain (some body) "cron") "jobs" = some (.arr xs)) ∧
      (∃ xs, jchain (jchain (some body) "cron") "runs" = some (.arr xs)) ∧
      (∃ xs, jchain (jchain (some body) "queues") "items" = some (.arr xs)) ∧
      (∃ xs, jchain (jchain (some body) "systemEvents") "items" = some (.arr xs)) ∧
      (∃ xs, jchain (jchain (some body) "usage") "items" = some (.arr xs)) ∧
      (∃ xs, jget body "warnings" = some (.arr xs)) := by
  intro cfg net env st body h
  rw [getTelemetry] at h
  cases hc : collectTelemetry cfg net env with
  | error e => rw [hc] at h; simp [Except.map] at h
  | ok p =>
    rw [hc] at h
    simp only [map_ok, Except.ok.injEq, Prod.mk.injEq] at h
    obtain ⟨hst, hbody⟩ := h
    subst hbody
    exact ⟨⟨_, rfl⟩, ⟨_, rfl⟩, ⟨_, rfl⟩, ⟨_, rfl⟩, ⟨_, rfl⟩, ⟨_, rfl⟩, ⟨_, rfl⟩, ⟨_, rfl⟩,
      ⟨_, rfl⟩⟩

/-- C8 witness: the invariant evaluated on the concrete no-URL
response. -/
theorem telemetry_collections_are_arrays_witness :
    (∃ xs, jchain (jchain (some telemetryNoUrlBody) "sessions") "sessions" = some (.arr xs)) ∧
    (∃ xs, jchain (jchain (some telemetryNoUrlBody) "terminal") "items" = some (.arr xs)) ∧
    (∃ xs, jchain (jchain (some telemetryNoUrlBody) "processes") "items" = some (.arr xs)) ∧
    (∃ xs, jchain (jchain (some telemetryNoUrlBody) "cron") "jobs" = some (.arr xs)) ∧
    (∃ xs, jchain (jchain (some telemetryNoUrlBody) "cron") "runs" = some (.arr xs)) ∧
    (∃ xs, jchain (jchain (some telemetryNoUrlBody) "queues") "items" = some (.arr xs)) ∧
    (∃ xs, jchain (jchain (some telemetryNoUrlBody) "systemEvents") "items" = some (.arr xs)) ∧
    (∃ xs, jchain (jchain (some telemetryNoUrlBody) "usage") "items" = some (.arr xs)) ∧
    (∃ xs, jget telemetryNoUrlBody "warnings" = some (.arr xs)) :=
  telemetry_collections_are_arrays noUrlConfig deadNet testEnv 200 telemetryNoUrlBody rfl

end Dashboard

